import Mathlib

/-!
Verification of the trellm per-ticket execution pipeline.

This file gives a shallow embedding of the parts of `trellm/state.py` and
`trellm/claude.py` that the testable properties talk about, and proves or
refutes each property against that embedding.

Conventions:
- machine integers are `Nat`/`Int` (Python ints are unbounded, so no wrap);
- Python `datetime.date` values are proleptic-Gregorian ordinals
  (`date.toordinal`, with 0001-01-01 = 1);
- fallible code returns `Except`/`Option`;
- Python dictionaries are insertion-ordered association lists.
-/

namespace Trellm

/-! ## Calendar arithmetic (Python `datetime` semantics) -/

/-- Gregorian leap-year test, as in Python `calendar.isleap`. -/
def is_leap (y : Nat) : Bool :=
  (y % 4 == 0 && y % 100 != 0) || y % 400 == 0

/-- Number of days in month `m` of year `y`. -/
def days_in_month (y m : Nat) : Nat :=
  if m = 2 then (if is_leap y then 29 else 28)
  else if m = 4 ∨ m = 6 ∨ m = 9 ∨ m = 11 then 30
  else 31

/-- Days in all years strictly before year `y` (proleptic Gregorian). -/
def days_before_year (y : Nat) : Nat :=
  let p := y - 1
  p * 365 + p / 4 - p / 100 + p / 400

/-- Days in the months of year `y` strictly before month `m`. -/
def days_before_month (y m : Nat) : Nat :=
  let base :=
    match m with
    | 1 => 0 | 2 => 31 | 3 => 59 | 4 => 90 | 5 => 120 | 6 => 151
    | 7 => 181 | 8 => 212 | 9 => 243 | 10 => 273 | 11 => 304 | 12 => 334
    | _ => 0
  if 2 < m && is_leap y then base + 1 else base

/-- Python `date(y, m, d).toordinal()`: proleptic Gregorian ordinal with
    0001-01-01 = 1. -/
def toordinal (y m d : Nat) : Nat :=
  days_before_year y + days_before_month y m + d

/-- Inverse of `toordinal` (Python `date.fromordinal`), for ordinals ≥ 1.
    Returns `(year, month, day)`.  Standard civil-from-days computation,
    shifted so that day 0 of the era count is 0000-03-01. -/
def fromordinal (n : Nat) : Nat × Nat × Nat :=
  let z := n + 305
  let era := z / 146097
  let doe := z % 146097
  let yoe := (doe - doe / 1460 + doe / 36524 - doe / 146096) / 365
  let y0 := yoe + era * 400
  let doy := doe - (365 * yoe + yoe / 4 - yoe / 100)
  let mp := (5 * doy + 2) / 153
  let d := doy - (153 * mp + 2) / 5 + 1
  let m := if mp < 10 then mp + 3 else mp - 9
  if m ≤ 2 then (y0 + 1, m, d) else (y0, m, d)

/-- Python `date.weekday()` of an ordinal: 0 = Monday .. 6 = Sunday.
    0001-01-01 (ordinal 1) is a Monday. -/
def weekday (o : Nat) : Nat := (o - 1) % 7

/-- Validity of a `YYYY-MM-DD` key under Python
    `datetime.strptime(key, "%Y-%m-%d")`: the year field is exactly four
    digits (so 1..9999 once `datetime` validates year ≥ 1), the month 1..12
    and the day 1..days_in_month. -/
def valid_date (y m d : Nat) : Bool :=
  1 ≤ y && y ≤ 9999 && 1 ≤ m && m ≤ 12 && 1 ≤ d && d ≤ days_in_month y m

/-- Python `date.isocalendar()` restricted to `(iso_year, iso_week)`:
    the ISO year is the calendar year of the Thursday in the week of the date,
    and the week number counts from the first Thursday of that year. -/
def isocalendar (y m d : Nat) : Nat × Nat :=
  let o := toordinal y m d
  let thursday := o + 4 - (weekday o + 1)
  let iy := (fromordinal thursday).1
  let week := (thursday - toordinal iy 1 1) / 7 + 1
  (iy, week)

/-- Ordinal of `datetime.strptime(f"{year}-W{week:02d}-1", "%Y-W%W-%w")`,
    i.e. the Monday of non-ISO week `w` of year `y` under Python `%W`
    semantics (week 1 starts at the first Monday of the year; days before it
    are week 0), or `none` when `strptime` raises: `%Y` matches exactly four
    digits, `%W` matches only 0..53.  For `w = 0` CPython produces a julian
    day ≤ 0 and rolls back into the previous year, which lands on the same
    ordinal `jan1 - weekday(jan1)`. -/
def week_start_ordinal (y w : Nat) : Option Nat :=
  if y < 1000 || 9999 < y || 53 < w then none
  else
    let jan1 := toordinal y 1 1
    let fw := weekday jan1
    if w = 0 then some (jan1 - fw)
    else some (jan1 + (7 - fw) % 7 + 7 * (w - 1))

/-! ## Stats buckets (`StateManager._empty_bucket` / `_aggregate_into_bucket`) -/

/-- A stats bucket, the value type of `stats["global"]`, `stats["by_project"]`
    and `stats["by_date"]` entries (`StateManager._empty_bucket`). -/
structure StatsBucket where
  total_cost_cents : Nat
  total_tickets : Nat
  total_api_duration_seconds : Nat
  total_wall_duration_seconds : Nat
  total_lines_added : Nat
  total_lines_removed : Nat
  total_input_tokens : Nat
  total_output_tokens : Nat
  total_cache_creation_tokens : Nat
  total_cache_read_tokens : Nat
deriving DecidableEq, Repr

/-- Embeds `StateManager._empty_bucket`. -/
def empty_bucket : StatsBucket :=
  ⟨0, 0, 0, 0, 0, 0, 0, 0, 0, 0⟩

/-- Embeds `StateManager._aggregate_into_bucket bucket stats`: field-wise sum added
    into `bucket` (missing fields default to 0; the embedding carries all
    fields, so `get(_, 0)` is the field itself). -/
def aggregate_into_bucket (bucket stats : StatsBucket) : StatsBucket :=
  ⟨bucket.total_cost_cents + stats.total_cost_cents,
   bucket.total_tickets + stats.total_tickets,
   bucket.total_api_duration_seconds + stats.total_api_duration_seconds,
   bucket.total_wall_duration_seconds + stats.total_wall_duration_seconds,
   bucket.total_lines_added + stats.total_lines_added,
   bucket.total_lines_removed + stats.total_lines_removed,
   bucket.total_input_tokens + stats.total_input_tokens,
   bucket.total_output_tokens + stats.total_output_tokens,
   bucket.total_cache_creation_tokens + stats.total_cache_creation_tokens,
   bucket.total_cache_read_tokens + stats.total_cache_read_tokens⟩

/-! ## `by_date` keys

The `by_date` dict of `state.py` is keyed by strings of three canonical
shapes: `"YYYY-MM-DD"` written by `record_cost`, and `"week-YYYY-WW"` /
`"month-YYYY-MM"` written by `_rollup_old_dates`.  The embedding models the
key space by these canonical shapes (components as numbers, zero-padded
rendering understood); a daily key whose components fail
`strptime("%Y-%m-%d")` validation is simply never touched by the rollup,
exactly like an unparseable string key in the Python code. -/

inductive DateKey where
  | daily (y m d : Nat)
  | weekly (y w : Nat)
  | monthly (y m : Nat)
deriving DecidableEq, Repr

/-- Insertion-ordered association list standing for a Python dict from
    date keys to buckets. -/
abbrev StatsMap := List (DateKey × StatsBucket)

def keys (m : StatsMap) : List DateKey := m.map Prod.fst

def keys_nodup (m : StatsMap) : Prop := (keys m).Nodup

def total_cost (m : StatsMap) : Nat :=
  (m.map (fun kv => kv.2.total_cost_cents)).sum

def has_key (m : StatsMap) (k : DateKey) : Bool :=
  m.any (fun kv => decide (kv.1 = k))

/-- Add `s` into the bucket stored at `k` (which is assumed present):
    `_aggregate_into_bucket(dict[k], s)`. -/
def add_to_key (m : StatsMap) (k : DateKey) (s : StatsBucket) : StatsMap :=
  m.map (fun kv => if kv.1 = k then (kv.1, aggregate_into_bucket kv.2 s) else kv)

/-- The `if key not in dict: dict[key] = _empty_bucket()` followed by
    `_aggregate_into_bucket(dict[key], s)` idiom of `state.py`. -/
def dict_add (m : StatsMap) (k : DateKey) (s : StatsBucket) : StatsMap :=
  if has_key m k then add_to_key m k s
  else m ++ [(k, aggregate_into_bucket empty_bucket s)]

/-- The apply-changes idiom at the end of `_rollup_old_dates`: merge into an
    existing entry, otherwise insert the bucket as-is at the end. -/
def set_or_merge (m : StatsMap) (k : DateKey) (s : StatsBucket) : StatsMap :=
  if has_key m k then add_to_key m k s
  else m ++ [(k, s)]

/-- Fold `set_or_merge` over the freshly built weekly/monthly buckets, in
    their insertion order. -/
def merge_new (m new : StatsMap) : StatsMap :=
  new.foldl (fun acc kv => set_or_merge acc kv.1 kv.2) m

/-! ## The rollup (`StateManager._rollup_old_dates`) -/

/-- Classification of a `by_date` entry by the rollup. -/
inductive RollupClass where
  | keep
  | toWeekly (y w : Nat)
  | toMonthly (y m : Nat)
deriving DecidableEq, Repr

/-- First loop of `_rollup_old_dates`, for one daily key:
    unparseable or at most 30 days old → keep; 31..90 days old → weekly
    bucket `week-{iso_year}-{iso_week}`; older → monthly bucket
    `month-{year}-{month}`.  `today` is an ordinal. -/
def classify_daily (today : Nat) (y m d : Nat) : RollupClass :=
  if !valid_date y m d then .keep
  else
    let days_old : Int := (today : Int) - (toordinal y m d : Int)
    if days_old ≤ 30 then .keep
    else if days_old ≤ 90 then
      let iso := isocalendar y m d
      .toWeekly iso.1 iso.2
    else .toMonthly y m

/-- Second loop of `_rollup_old_dates`, for one `week-YYYY-WW` key:
    if the `%W`-parsed week start is more than 90 days old, merge into
    `month-{week_start.year}-{week_start.month}`; otherwise (including a
    `strptime` failure) keep. -/
def classify_weekly (today : Nat) (y w : Nat) : RollupClass :=
  match week_start_ordinal y w with
  | none => .keep
  | some ws =>
    if (90 : Int) < (today : Int) - (ws : Int) then
      let md := fromordinal ws
      .toMonthly md.1 md.2.1
    else .keep

/-- Whether the first loop removes a key. -/
def removable1 (today : Nat) (k : DateKey) : Bool :=
  match k with
  | .daily y m d =>
    match classify_daily today y m d with
    | .keep => false
    | _ => true
  | _ => false

/-- Whether the second loop removes a key. -/
def removable2 (today : Nat) (k : DateKey) : Bool :=
  match k with
  | .weekly y w =>
    match classify_weekly today y w with
    | .keep => false
    | _ => true
  | _ => false

/-- Whether `_rollup_old_dates` deletes a key from `by_date`. -/
def removable (today : Nat) (k : DateKey) : Bool :=
  removable1 today k || removable2 today k

/-- Accumulator of `_rollup_old_dates`: the `to_remove` list and the
    `weekly_buckets` / `monthly_buckets` dicts. -/
structure RollupAcc where
  to_remove : List DateKey
  weekly_buckets : StatsMap
  monthly_buckets : StatsMap
deriving DecidableEq, Repr

/-- Body of the first loop of `_rollup_old_dates` for one entry. -/
def rollup_step1 (today : Nat) (acc : RollupAcc) (kv : DateKey × StatsBucket) :
    RollupAcc :=
  match kv.1 with
  | .daily y m d =>
    match classify_daily today y m d with
    | .keep => acc
    | .toWeekly iy iw =>
      { acc with
        to_remove := acc.to_remove ++ [kv.1],
        weekly_buckets := dict_add acc.weekly_buckets (.weekly iy iw) kv.2 }
    | .toMonthly my mm =>
      { acc with
        to_remove := acc.to_remove ++ [kv.1],
        monthly_buckets := dict_add acc.monthly_buckets (.monthly my mm) kv.2 }
  | _ => acc

/-- Body of the second loop of `_rollup_old_dates` for one entry. -/
def rollup_step2 (today : Nat) (acc : RollupAcc) (kv : DateKey × StatsBucket) :
    RollupAcc :=
  match kv.1 with
  | .weekly y w =>
    match classify_weekly today y w with
    | .toMonthly my mm =>
      { acc with
        to_remove := acc.to_remove ++ [kv.1],
        monthly_buckets := dict_add acc.monthly_buckets (.monthly my mm) kv.2 }
    | _ => acc
  | _ => acc

/-- Embeds `StateManager._rollup_old_dates`, as a pure function of the ordinal of
    `datetime.now(timezone.utc).date()` and the `by_date` dict: two
    classification passes over the (unmodified) dict, deletion of the
    collected keys, then merge-or-insert of the new weekly and monthly
    buckets in that order. -/
def rollup_old_dates (today : Nat) (by_date : StatsMap) : StatsMap :=
  let acc1 := by_date.foldl (rollup_step1 today) ⟨[], [], []⟩
  let acc2 := by_date.foldl (rollup_step2 today) acc1
  let pruned := by_date.filter (fun kv => decide (kv.1 ∉ acc2.to_remove))
  merge_new (merge_new pruned acc2.weekly_buckets) acc2.monthly_buckets

/-! ## String parsers (`_parse_cost`, `_parse_duration`, `_parse_code_changes`)

The regular expressions of `state.py` are embedded as explicit leftmost
scanners.  For each pattern, greedy backtracking inside `(\d+)` can never
succeed where the maximal digit run fails (the character after a shortened
run is a digit, which is neither `\s`, `.`, nor any of the letter targets),
so trying the pattern at every start position, with maximal digit runs, is
exactly `re.search`. -/

/-- Split a maximal leading run of ASCII digits. -/
def digit_run : List Char → List Char × List Char
  | [] => ([], [])
  | c :: rest =>
    if c.isDigit then
      let p := digit_run rest
      (c :: p.1, p.2)
    else ([], c :: rest)

def digits_to_nat (ds : List Char) : Nat :=
  ds.foldl (fun acc c => acc * 10 + (c.toNat - 48)) 0

/-- Skip a maximal run of `\s` characters. -/
def drop_spaces : List Char → List Char
  | [] => []
  | c :: rest =>
    if c == ' ' || c == '\t' || c == '\n' || c == '\r' || c == '\x0b' || c == '\x0c' then
      drop_spaces rest
    else c :: rest

/-- One-position attempt of `\$?(\d+)\.(\d{2})` (value in cents). -/
def try_dollars (cs : List Char) : Option Nat :=
  let cs2 := match cs with
    | '$' :: rest => rest
    | _ => cs
  match digit_run cs2 with
  | ([], _) => none
  | (ds, rest) =>
    match rest with
    | '.' :: c1 :: c2 :: _ =>
      if c1.isDigit && c2.isDigit then
        some (digits_to_nat ds * 100 + digits_to_nat [c1, c2])
      else none
    | _ => none

/-- Embeds `re.search` of `\$?(\d+)\.(\d{2})`. -/
def search_dollars : List Char → Option Nat
  | [] => none
  | c :: rest =>
    match try_dollars (c :: rest) with
    | some v => some v
    | none => search_dollars rest

/-- One-position attempt of `(\d+)\s*cents?` (case-insensitive). -/
def try_cents (cs : List Char) : Option Nat :=
  match digit_run cs with
  | ([], _) => none
  | (ds, rest) =>
    match drop_spaces rest with
    | c1 :: c2 :: c3 :: c4 :: _ =>
      if c1.toLower == 'c' && c2.toLower == 'e' && c3.toLower == 'n' && c4.toLower == 't' then
        some (digits_to_nat ds)
      else none
    | _ => none

/-- Embeds `re.search` of `(\d+)\s*cents?`. -/
def search_cents : List Char → Option Nat
  | [] => none
  | c :: rest =>
    match try_cents (c :: rest) with
    | some v => some v
    | none => search_cents rest

/-- Embeds `StateManager._parse_cost`: dollars pattern first, then integer cents,
    else 0; `None` and the empty string give 0. -/
def parse_cost (cost_str : Option String) : Nat :=
  match cost_str with
  | none => 0
  | some s =>
    if s = "" then 0
    else
      match search_dollars s.toList with
      | some v => v
      | none =>
        match search_cents s.toList with
        | some v => v
        | none => 0

/-- One-position attempt of `(\d+)\s*X` for a letter target `X`
    (case-insensitive; the optional trailing `in`/`ec` of the `state.py`
    patterns does not affect the captured number). -/
def try_num_before (target : Char) (cs : List Char) : Option Nat :=
  match digit_run cs with
  | ([], _) => none
  | (ds, rest) =>
    match drop_spaces rest with
    | c :: _ => if c.toLower == target then some (digits_to_nat ds) else none
    | [] => none

/-- Embeds `re.search` of `(\d+)\s*X`. -/
def search_num_before (target : Char) : List Char → Option Nat
  | [] => none
  | c :: rest =>
    match try_num_before target (c :: rest) with
    | some v => some v
    | none => search_num_before target rest

/-- Embeds `StateManager._parse_duration`: independent searches for hours, minutes
    and seconds, summed with multipliers 3600/60/1. -/
def parse_duration (duration_str : Option String) : Nat :=
  match duration_str with
  | none => 0
  | some s =>
    if s = "" then 0
    else
      let cs := s.toList
      let h := match search_num_before 'h' cs with | some v => v * 3600 | none => 0
      let m := match search_num_before 'm' cs with | some v => v * 60 | none => 0
      let sec := match search_num_before 's' cs with | some v => v | none => 0
      h + m + sec

/-- Embeds `re.search` of `M(\d+)` for a marker character `M` (`+` or `-`). -/
def search_after_char (mark : Char) : List Char → Option Nat
  | [] => none
  | c :: rest =>
    if c == mark then
      match digit_run rest with
      | ([], _) => search_after_char mark rest
      | (ds, _) => some (digits_to_nat ds)
    else search_after_char mark rest

/-- Embeds `StateManager._parse_code_changes`: `(added, removed)` from `\+(\d+)`
    and `-(\d+)`. -/
def parse_code_changes (changes_str : Option String) : Nat × Nat :=
  match changes_str with
  | none => (0, 0)
  | some s =>
    if s = "" then (0, 0)
    else
      let cs := s.toList
      ((search_after_char '+' cs).getD 0, (search_after_char '-' cs).getD 0)

/-! ## The stats ledger state and `record_cost` -/

/-- One entry of `stats["ticket_history"]`. -/
structure TicketRecord where
  card_id : String
  project : String
  cost_cents : Nat
  api_duration_seconds : Nat
  wall_duration_seconds : Nat
  lines_added : Nat
  lines_removed : Nat
  input_tokens : Nat
  output_tokens : Nat
  cache_creation_tokens : Nat
  cache_read_tokens : Nat
  processed_at : String
deriving DecidableEq, Repr

/-- A calendar date (the value of `datetime.now(timezone.utc).date()` at the
    moment of a call). -/
structure Ymd where
  year : Nat
  month : Nat
  day : Nat
deriving DecidableEq, Repr

def Ymd.toord (t : Ymd) : Nat := toordinal t.year t.month t.day

/-- The `stats` sub-document of the persisted state
    (`StateManager._empty_stats`). -/
structure Stats where
  global : StatsBucket
  by_project : List (String × StatsBucket)
  by_date : StatsMap
  ticket_history : List TicketRecord
deriving DecidableEq, Repr

def empty_stats : Stats := ⟨empty_bucket, [], [], []⟩

/-- The `by_project` analogue of `dict_add`, keyed by project name. -/
def proj_add (m : List (String × StatsBucket)) (k : String) (s : StatsBucket) :
    List (String × StatsBucket) :=
  if m.any (fun kv => decide (kv.1 = k)) then
    m.map (fun kv => if kv.1 = k then (kv.1, aggregate_into_bucket kv.2 s) else kv)
  else m ++ [(k, aggregate_into_bucket empty_bucket s)]

/-- The arguments of one `StateManager.record_cost` call, together with the
    UTC date and timestamp string observed during the call. -/
structure RecordCall where
  card_id : String
  project : String
  total_cost : Option String
  api_duration : Option String
  wall_duration : Option String
  code_changes : Option String
  input_tokens : Nat
  output_tokens : Nat
  cache_creation_tokens : Nat
  cache_read_tokens : Nat
  today : Ymd
  now_iso : String
deriving DecidableEq, Repr

/-- Embeds `StateManager.record_cost`: parse the raw strings, add the resulting
    delta into the global bucket, the project bucket and the daily
    bucket of the current UTC day (each update is the same field-wise sum that
    `_aggregate_into_bucket` performs, written out with `+=` in the source),
    append a ticket-history record, cap the history at its 100 most recent
    entries, and finally `_save`, which runs `_rollup_old_dates`. -/
def record_cost (s : Stats) (a : RecordCall) : Stats :=
  let cost_cents := parse_cost a.total_cost
  let api_seconds := parse_duration a.api_duration
  let wall_seconds := parse_duration a.wall_duration
  let changes := parse_code_changes a.code_changes
  let delta : StatsBucket :=
    ⟨cost_cents, 1, api_seconds, wall_seconds, changes.1, changes.2,
     a.input_tokens, a.output_tokens, a.cache_creation_tokens, a.cache_read_tokens⟩
  let trec : TicketRecord :=
    ⟨a.card_id, a.project, cost_cents, api_seconds, wall_seconds, changes.1, changes.2,
     a.input_tokens, a.output_tokens, a.cache_creation_tokens, a.cache_read_tokens,
     a.now_iso⟩
  let hist := s.ticket_history ++ [trec]
  let hist2 := if 100 < hist.length then hist.drop (hist.length - 100) else hist
  { global := aggregate_into_bucket s.global delta,
    by_project := proj_add s.by_project a.project delta,
    by_date := rollup_old_dates a.today.toord
      (dict_add s.by_date (.daily a.today.year a.today.month a.today.day) delta),
    ticket_history := hist2 }

/-- One operation against the stats ledger: a `record_cost` call (which ends
    in a `_save`, hence a rollup), or a bare `_save` from one of the other
    `StateManager` methods (whose only effect on `stats` is the rollup). -/
inductive StatsOp where
  | record (a : RecordCall)
  | save (today : Ymd)
deriving DecidableEq, Repr

def apply_op (s : Stats) : StatsOp → Stats
  | .record a => record_cost s a
  | .save t => { s with by_date := rollup_old_dates t.toord s.by_date }

def apply_ops (ops : List StatsOp) (s : Stats) : Stats :=
  ops.foldl apply_op s

def record_count : List StatsOp → Nat
  | [] => 0
  | .record _ :: rest => record_count rest + 1
  | .save _ :: rest => record_count rest

def history_cost (h : List TicketRecord) : Nat :=
  (h.map (fun r => r.cost_cents)).sum

/-- The sum the claim C1 talks about: the global bucket plus every `by_date`
    bucket. -/
def buckets_cost (s : Stats) : Nat :=
  s.global.total_cost_cents + total_cost s.by_date

/-! ## Python truthiness helpers for optional strings -/

/-- Python truthiness of an optional string: `None` and `""` are falsy. -/
def py_truthy : Option String → Bool
  | none => false
  | some s => !(s == "")

/-- Python `a or b` on optional strings. -/
def py_or (a b : Option String) : Option String :=
  if py_truthy a then a else b

/-! ## Usage accounting (`_read_token_usage_from_jsonl`, `_run_compact`) -/

/-- The `usage` object of one message in a session JSONL file. -/
structure MessageUsage where
  input_tokens : Nat
  output_tokens : Nat
  cache_creation_input_tokens : Nat
  cache_read_input_tokens : Nat
deriving DecidableEq, Repr

/-- One line of a session JSONL file, as `_read_token_usage_from_jsonl`
    sees it: either skipped (blank, unparseable, or with a missing/empty —
    hence falsy — `message.usage` object), or a message with usage data. -/
inductive JsonlLine where
  | noUsage
  | withUsage (u : MessageUsage)
deriving DecidableEq, Repr

/-- The four running totals of `_read_token_usage_from_jsonl`. -/
structure TokenTotals where
  input_tokens : Nat
  output_tokens : Nat
  cache_creation_input_tokens : Nat
  cache_read_input_tokens : Nat
deriving DecidableEq, Repr

/-- Embeds `_read_token_usage_from_jsonl`: sum each usage field over every line of
    the session JSONL file. -/
def read_token_usage_from_jsonl (lines : List JsonlLine) : TokenTotals :=
  lines.foldl
    (fun t l =>
      match l with
      | .noUsage => t
      | .withUsage u =>
        ⟨t.input_tokens + u.input_tokens,
         t.output_tokens + u.output_tokens,
         t.cache_creation_input_tokens + u.cache_creation_input_tokens,
         t.cache_read_input_tokens + u.cache_read_input_tokens⟩)
    ⟨0, 0, 0, 0⟩

/-- The quantity `_run_compact` computes as `before_tokens`/`after_tokens`
    from a `CostInfo` whose token fields were filled from
    `_read_token_usage_from_jsonl`: input + output + cache-creation totals. -/
def compact_compared_tokens (t : TokenTotals) : Nat :=
  t.input_tokens + t.output_tokens + t.cache_creation_input_tokens

/-- Modelled from the spec: the "last non-zero input-token count found in
    the persisted conversation log of the session", which the spec says the
    Usage Accountant exposes as the current context size and the Compactor
    compares.  No such value is computed anywhere in `claude.py`; this
    definition follows the wording of the spec for comparison. -/
def spec_last_nonzero_input_tokens (lines : List JsonlLine) : Nat :=
  lines.foldl
    (fun acc l =>
      match l with
      | .withUsage u => if u.input_tokens ≠ 0 then u.input_tokens else acc
      | .noUsage => acc)
    0

/-! ## Process output lines and result parsing -/

/-- One line of agent stdout as the JSON-scanning loops of `claude.py` see
    it: not a JSON object line (blank, not starting with `{`, or failing
    `json.loads`), or a JSON object with optional string-valued
    `session_id` and `result` fields. -/
inductive OutLine where
  | notJson
  | json (session_id : Option String) (result : Option String)
deriving DecidableEq, Repr

/-- The scanning loop of `ClaudeRunner._parse_output`, over the reversed
    line list: a `session_id` field overwrites the running session id, a
    `result` field overwrites the running summary, and the loop breaks as
    soon as the running session id is truthy. -/
def parse_output_scan : List OutLine → Option String → String → Option String × String
  | [], sid, summ => (sid, summ)
  | .notJson :: rest, sid, summ => parse_output_scan rest sid summ
  | .json s r :: rest, sid, summ =>
    let sid2 := match s with | some v => some v | none => sid
    let summ2 := match r with | some v => v | none => summ
    if py_truthy sid2 then (sid2, summ2) else parse_output_scan rest sid2 summ2

/-- Embeds `CostInfo` (dataclass of `claude.py`). -/
structure CostInfo where
  total_cost : Option String
  api_duration : Option String
  wall_duration : Option String
  code_changes : Option String
  input_tokens : Nat
  output_tokens : Nat
  cache_creation_tokens : Nat
  cache_read_tokens : Nat
deriving DecidableEq, Repr

/-- Embeds `ClaudeResult` (dataclass of `claude.py`); `output` keeps the modelled
    line list. -/
structure ClaudeResult where
  success : Bool
  session_id : Option String
  summary : String
  output : List OutLine
  cost_info : Option CostInfo
deriving DecidableEq, Repr

/-- Embeds `ClaudeRunner._parse_output`: walk the lines from the end, last
    `session_id`/`result` fields win, defaults are `None` and
    `"Task completed"`, and `success` is unconditionally `True`. -/
def parse_output (output : List OutLine) : ClaudeResult :=
  let p := parse_output_scan output.reverse none "Task completed"
  { success := true, session_id := p.1, summary := p.2, output := output,
    cost_info := none }

/-- The reverse scan shared by `_run_compact` and the failed-run
    `session_id` extraction in `_run_once`: first JSON line from the end
    carrying a `session_id` field wins (the loop breaks on the field being
    present, regardless of its value). -/
def extract_session_id : List OutLine → Option String
  | [] => none
  | .notJson :: rest => extract_session_id rest
  | .json s _ :: rest =>
    match s with
    | some v => some v
    | none => extract_session_id rest

def last_session_id (output : List OutLine) : Option String :=
  extract_session_id output.reverse

/-- Embeds `ClaudeRunner._run_compact` as a function of the compact subprocess
    exit code and stdout: non-zero exit → `None`; otherwise the last
    `session_id` in the output, `None` when absent or falsy.  The
    before/after `/cost` queries only affect logging, not the return value.
    Note the returned handle is in no way compared with `session_id`. -/
def run_compact (session_id : String) (returncode : Int) (output : List OutLine) :
    Option String :=
  if returncode ≠ 0 then none
  else
    let new_session_id := last_session_id output
    if py_truthy new_session_id then new_session_id else none

/-! ## The retry loop (`ClaudeRunner.run`) -/

/-- Embeds `ClaudeRunner.MAX_RETRIES`. -/
def MAX_RETRIES : Nat := 2

/-- Outcome of one `_run_once` call: a returned result, or one of the three
    exception kinds `run` can observe (`PromptTooLongError`,
    `RateLimitError`, or a fatal `RuntimeError` that propagates). -/
inductive AttemptOutcome where
  | ok (r : ClaudeResult)
  | promptTooLong (tokens maximum : Option Nat) (session_id : Option String)
  | rateLimit (reset_seconds : Option Nat)
  | fatal (msg : String)
deriving DecidableEq, Repr

/-- Environment of one `run` call: the outcome of the i-th `_run_once`
    call, the return value of the j-th `_run_compact` call, and the
    `_run_cost` result used on the success path. -/
structure RunEnv where
  attemptOf : Nat → AttemptOutcome
  compactOf : Nat → Option String
  cost_env : Option CostInfo

/-- Observable trace of a `run` call: the `session_id` argument of each
    `_run_once` call, the `session_id` argument of each `_run_compact`
    call, and each `asyncio.sleep` duration, all in order. -/
structure RunTrace where
  run_once_sessions : List (Option String)
  compact_sessions : List String
  sleeps : List Nat
deriving DecidableEq, Repr

inductive RunOutcome where
  | ok (r : ClaudeResult)
  | err (msg : String)
deriving DecidableEq, Repr

/-- The retry loop `for attempt in range(MAX_RETRIES + 1)` of
    `ClaudeRunner.run`.  `fuel` is the number of remaining iterations
    (initially `MAX_RETRIES + 1`), `attempt` the Python loop index. -/
def run_loop (env : RunEnv) : Nat → Nat → Option String → RunTrace →
    RunTrace × RunOutcome
  | 0, _, _, tr => (tr, .err "Claude Code failed after retries")
  | fuel + 1, attempt, current, tr =>
    let i := tr.run_once_sessions.length
    let tr1 : RunTrace := { tr with run_once_sessions := tr.run_once_sessions ++ [current] }
    match env.attemptOf i with
    | .ok res =>
      -- on success, `/cost` runs when the result carries a truthy session id
      let res2 := if py_truthy res.session_id then { res with cost_info := env.cost_env } else res
      (tr1, .ok res2)
    | .fatal msg => (tr1, .err msg)
    | .promptTooLong _ _ sid =>
      if MAX_RETRIES ≤ attempt then (tr1, .err "Prompt too long")
      else
        -- `session_to_compact = e.session_id or current_session_id`
        let stc := py_or sid current
        if py_truthy stc then
          let s := stc.getD ""
          let j := tr1.compact_sessions.length
          let tr2 : RunTrace := { tr1 with compact_sessions := tr1.compact_sessions ++ [s] }
          let new_session_id := env.compactOf j
          if py_truthy new_session_id then run_loop env fuel (attempt + 1) new_session_id tr2
          else (tr2, .err "Prompt too long and compact failed")
        else (tr1, .err "Prompt too long")
    | .rateLimit reset =>
      if MAX_RETRIES ≤ attempt then (tr1, .err "Rate limit exceeded")
      else
        -- `if e.reset_seconds:` — `None` and 0 fall back to the 300s default
        let sleep_time := match reset with
          | some s => if s = 0 then 300 else s
          | none => 300
        run_loop env fuel (attempt + 1) current { tr1 with sleeps := tr1.sleeps ++ [sleep_time] }

/-- Embeds `ClaudeRunner.run`: optional pre-compaction (existing truthy session and
    a card different from the last processed one; a failed pre-compaction
    keeps the original handle), then the retry loop. -/
def run (env : RunEnv) (card_id : String) (session_id : Option String)
    (last_card_id : Option String) : RunTrace × RunOutcome :=
  let is_new_card := match last_card_id with
    | none => true
    | some l => decide (card_id ≠ l)
  if py_truthy session_id && is_new_card then
    let s := session_id.getD ""
    let tr0 : RunTrace := ⟨[], [s], []⟩
    let new_session_id := env.compactOf 0
    let current := if py_truthy new_session_id then new_session_id else session_id
    run_loop env (MAX_RETRIES + 1) 0 current tr0
  else
    run_loop env (MAX_RETRIES + 1) 0 session_id ⟨[], [], []⟩

/-! ## Clock-time reset parsing (`_parse_rate_limit_reset_time`) -/

/-- A timezone-aware Python `datetime` (UTC). -/
structure PyDateTime where
  year : Nat
  month : Nat
  day : Nat
  hour : Nat
  minute : Nat
  second : Nat
  microsecond : Nat
deriving DecidableEq, Repr

/-- Microseconds since a fixed origin; `datetime` comparison and
    subtraction are order/difference of this count. -/
def dt_micros (t : PyDateTime) : Nat :=
  ((toordinal t.year t.month t.day) * 86400 +
    t.hour * 3600 + t.minute * 60 + t.second) * 1000000 + t.microsecond

/-- The clock-time branch of `ClaudeRunner._parse_rate_limit_reset_time`,
    for a message matching `resets H(:MM)?(am|pm)`, as a function of the
    captured groups and of `datetime.now(timezone.utc)`.  Mirrors lines
    399–418 of `claude.py`: 12-hour to 24-hour conversion, `now.replace`
    of the time fields, and — when the reset time is not in the future —
    `reset_time.replace(day=reset_time.day + 1)`, which raises `ValueError`
    when `day + 1` exceeds the length of the current month.  `int()` of
    `timedelta.total_seconds()` is exact truncation for these magnitudes. -/
def parse_reset_clock (hour12 : Nat) (minute? : Option Nat) (is_pm : Bool)
    (now : PyDateTime) : Except String Int :=
  let hour := if is_pm && hour12 ≠ 12 then hour12 + 12
    else if !is_pm && hour12 = 12 then 0
    else hour12
  let minute := minute?.getD 0
  let reset : PyDateTime :=
    { now with hour := hour, minute := minute, second := 0, microsecond := 0 }
  if dt_micros reset ≤ dt_micros now then
    if 1 ≤ reset.day + 1 && reset.day + 1 ≤ days_in_month reset.year reset.month then
      let reset2 := { reset with day := reset.day + 1 }
      .ok (max 0 (((dt_micros reset2 : Int) - (dt_micros now : Int)).tdiv 1000000))
    else .error "ValueError: day is out of range for month"
  else .ok (max 0 (((dt_micros reset : Int) - (dt_micros now : Int)).tdiv 1000000))

/-! ## Helper lemmas -/

lemma py_truthy_some_iff (s : String) : py_truthy (some s) = true ↔ s ≠ "" := by
  simp [py_truthy]

lemma py_truthy_py_or (a b : Option String) :
    py_truthy (py_or a b) = (py_truthy a || py_truthy b) := by
  unfold py_or
  cases h : py_truthy a <;> simp [h]

lemma token_fold_general (lines : List JsonlLine) :
    ∀ t : TokenTotals,
      lines.foldl
        (fun t l =>
          match l with
          | .noUsage => t
          | .withUsage u =>
            ⟨t.input_tokens + u.input_tokens,
             t.output_tokens + u.output_tokens,
             t.cache_creation_input_tokens + u.cache_creation_input_tokens,
             t.cache_read_input_tokens + u.cache_read_input_tokens⟩)
        t =
      ⟨t.input_tokens +
          (lines.map fun l => match l with | .withUsage u => u.input_tokens | .noUsage => 0).sum,
       t.output_tokens +
          (lines.map fun l => match l with | .withUsage u => u.output_tokens | .noUsage => 0).sum,
       t.cache_creation_input_tokens +
          (lines.map fun l =>
            match l with | .withUsage u => u.cache_creation_input_tokens | .noUsage => 0).sum,
       t.cache_read_input_tokens +
          (lines.map fun l =>
            match l with | .withUsage u => u.cache_read_input_tokens | .noUsage => 0).sum⟩ := by
  induction lines with
  | nil => intro t; simp
  | cons l rest ih =>
    intro t
    cases l with
    | noUsage => simp only [List.foldl_cons, List.map_cons, List.sum_cons, ih]; simp
    | withUsage u =>
      simp only [List.foldl_cons, List.map_cons, List.sum_cons, ih]
      simp [Nat.add_assoc, Nat.add_comm, Nat.add_left_comm]

lemma sum_map_add3 (lines : List JsonlLine) (f g h : JsonlLine → Nat) :
    (lines.map fun l => f l + g l + h l).sum =
      (lines.map f).sum + (lines.map g).sum + (lines.map h).sum := by
  induction lines with
  | nil => simp
  | cons l rest ih => simp [ih]; omega

/-! ## C7: clock-time reset recovery -/

/-- Claim C7 (code_bug): for "resets 8pm (UTC)" the recovered reset seconds
    match the claim mid-month — time until 20:00 UTC today before 20:00,
    until 20:00 UTC tomorrow after 20:00 — but on the last day of a month,
    evaluated after 20:00 UTC, `reset_time.replace(day=reset_time.day + 1)`
    raises `ValueError` instead of producing the claimed 82800 seconds, so
    the property does not hold for every current date and time. -/
theorem c7_theorem :
    parse_reset_clock 8 none true ⟨2025, 1, 15, 10, 0, 0, 0⟩ = .ok 36000 ∧
    parse_reset_clock 8 none true ⟨2025, 1, 15, 21, 30, 0, 0⟩ = .ok 81000 ∧
    parse_reset_clock 8 none true ⟨2025, 1, 31, 21, 0, 0, 0⟩ =
      .error "ValueError: day is out of range for month" := by
  refine ⟨by rfl, by rfl, by rfl⟩

/-! ## C3: what the compactor compares -/

/-- Claim C3 is refuted: on a log whose messages carry input-token counts
    100 then 7, the value the spec prescribes (last non-zero input count,
    7) differs from the value `_run_compact` actually compares
    (input + output + cache-creation totals, 107). -/
theorem c3_counterexample :
    spec_last_nonzero_input_tokens
        [JsonlLine.withUsage ⟨100, 0, 0, 0⟩, JsonlLine.withUsage ⟨7, 0, 0, 0⟩] = 7 ∧
    compact_compared_tokens (read_token_usage_from_jsonl
        [JsonlLine.withUsage ⟨100, 0, 0, 0⟩, JsonlLine.withUsage ⟨7, 0, 0, 0⟩]) = 107 ∧
    (107 : Nat) ≠ 7 := by
  refine ⟨by decide, by decide, by decide⟩

/-- Claim C3 as amended: the accountant returns the field-wise sums of the
    usage objects over every line of the session log, and the value the
    compactor compares before/after compaction is the sum of the input,
    output and cache-creation totals — not a last non-zero input count. -/
theorem c3_theorem (lines : List JsonlLine) :
    read_token_usage_from_jsonl lines =
      ⟨(lines.map fun l =>
          match l with | .withUsage u => u.input_tokens | .noUsage => 0).sum,
       (lines.map fun l =>
          match l with | .withUsage u => u.output_tokens | .noUsage => 0).sum,
       (lines.map fun l =>
          match l with | .withUsage u => u.cache_creation_input_tokens | .noUsage => 0).sum,
       (lines.map fun l =>
          match l with | .withUsage u => u.cache_read_input_tokens | .noUsage => 0).sum⟩ ∧
    compact_compared_tokens (read_token_usage_from_jsonl lines) =
      (lines.map fun l =>
        match l with
        | .withUsage u => u.input_tokens + u.output_tokens + u.cache_creation_input_tokens
        | .noUsage => 0).sum := by
  have hfold := token_fold_general lines ⟨0, 0, 0, 0⟩
  constructor
  · simpa [read_token_usage_from_jsonl] using hfold
  · have h3 := sum_map_add3 lines
      (fun l => match l with | .withUsage u => u.input_tokens | .noUsage => 0)
      (fun l => match l with | .withUsage u => u.output_tokens | .noUsage => 0)
      (fun l => match l with | .withUsage u => u.cache_creation_input_tokens | .noUsage => 0)
    have hcongr :
        (lines.map fun l =>
          match l with
          | .withUsage u => u.input_tokens + u.output_tokens + u.cache_creation_input_tokens
          | .noUsage => 0) =
        (lines.map fun l =>
          (match l with | .withUsage u => u.input_tokens | .noUsage => 0) +
          (match l with | .withUsage u => u.output_tokens | .noUsage => 0) +
          (match l with | .withUsage u => u.cache_creation_input_tokens | .noUsage => 0)) := by
      apply List.map_congr_left
      intro l _
      cases l <;> rfl
    rw [hcongr, h3]
    simp [read_token_usage_from_jsonl, hfold, compact_compared_tokens]

/-! ## C10: exit code 0 always parses as success -/

lemma parse_output_scan_nofield (ls : List OutLine)
    (h : ∀ l ∈ ls, l = OutLine.notJson ∨ l = OutLine.json none none) :
    ∀ sid summ, parse_output_scan ls sid summ = (sid, summ) := by
  induction ls with
  | nil => intro sid summ; rfl
  | cons l rest ih =>
    intro sid summ
    have hrest : ∀ x ∈ rest, x = OutLine.notJson ∨ x = OutLine.json none none :=
      fun x hx => h x (by simp [hx])
    rcases h l (by simp) with hl | hl <;> subst hl
    · simpa [parse_output_scan] using ih hrest sid summ
    · simp only [parse_output_scan]
      cases hp : py_truthy sid
      · simpa [hp] using ih hrest sid summ
      · simp [hp]

/-- Claim C10: whenever `_run_once` sees exit code 0 it returns
    `_parse_output(output)`, whose `success` flag is unconditionally true;
    and when no output line carries a `session_id` or `result` field the
    parsed session handle is `None` and the summary is the default
    "Task completed". -/
theorem c10_theorem (lines : List OutLine) :
    (parse_output lines).success = true ∧
    ((∀ l ∈ lines, l = OutLine.notJson ∨ l = OutLine.json none none) →
      (parse_output lines).session_id = none ∧
      (parse_output lines).summary = "Task completed") := by
  constructor
  · rfl
  · intro h
    have h2 : ∀ l ∈ lines.reverse, l = OutLine.notJson ∨ l = OutLine.json none none := by
      intro l hl
      exact h l (List.mem_reverse.mp hl)
    have hscan := parse_output_scan_nofield lines.reverse h2 none "Task completed"
    constructor
    · simp [parse_output, hscan]
    · simp [parse_output, hscan]

/-- Witness for C10 at a concrete output consisting of one non-JSON line. -/
theorem c10_witness :
    (parse_output [OutLine.notJson]).success = true ∧
    (parse_output [OutLine.notJson]).session_id = none ∧
    (parse_output [OutLine.notJson]).summary = "Task completed" := by
  have h := c10_theorem [OutLine.notJson]
  exact ⟨h.1, (h.2 (by simp)).1, (h.2 (by simp)).2⟩

/-! ## Run-loop lemmas -/

lemma py_truthy_getD {o : Option String} (h : py_truthy o = true) :
    some (o.getD "") = o := by
  cases o with
  | none => simp [py_truthy] at h
  | some v => rfl

lemma run_loop_zero_eq (env : RunEnv) (a : Nat) (cur : Option String) (tr : RunTrace) :
    run_loop env 0 a cur tr = (tr, .err "Claude Code failed after retries") := rfl

/-- One unfolding of `run_loop` at positive fuel, with the intermediate
    `let`s inlined. -/
lemma run_loop_succ_eq (env : RunEnv) (n a : Nat) (cur : Option String) (tr : RunTrace) :
    run_loop env (n + 1) a cur tr =
      match env.attemptOf tr.run_once_sessions.length with
      | .ok res =>
        ({ tr with run_once_sessions := tr.run_once_sessions ++ [cur] },
         .ok (if py_truthy res.session_id then { res with cost_info := env.cost_env } else res))
      | .fatal msg =>
        ({ tr with run_once_sessions := tr.run_once_sessions ++ [cur] }, .err msg)
      | .promptTooLong _ _ sid =>
        if MAX_RETRIES ≤ a then
          ({ tr with run_once_sessions := tr.run_once_sessions ++ [cur] },
           .err "Prompt too long")
        else if py_truthy (py_or sid cur) then
          if py_truthy (env.compactOf tr.compact_sessions.length) then
            run_loop env n (a + 1) (env.compactOf tr.compact_sessions.length)
              { tr with run_once_sessions := tr.run_once_sessions ++ [cur],
                        compact_sessions := tr.compact_sessions ++ [(py_or sid cur).getD ""] }
          else
            ({ tr with run_once_sessions := tr.run_once_sessions ++ [cur],
                       compact_sessions := tr.compact_sessions ++ [(py_or sid cur).getD ""] },
             .err "Prompt too long and compact failed")
        else
          ({ tr with run_once_sessions := tr.run_once_sessions ++ [cur] },
           .err "Prompt too long")
      | .rateLimit reset =>
        if MAX_RETRIES ≤ a then
          ({ tr with run_once_sessions := tr.run_once_sessions ++ [cur] },
           .err "Rate limit exceeded")
        else
          run_loop env n (a + 1) cur
            { tr with run_once_sessions := tr.run_once_sessions ++ [cur],
                      sleeps := tr.sleeps ++
                        [match reset with
                         | some s => if s = 0 then 300 else s
                         | none => 300] } := by
  cases h : env.attemptOf tr.run_once_sessions.length <;>
    simp only [run_loop, h]

/-- The trace of a `run_loop` call extends the trace it was given. -/
lemma run_loop_trace_ext (env : RunEnv) :
    ∀ (fuel a : Nat) (cur : Option String) (tr : RunTrace),
      ∃ xs ys zs,
        (run_loop env fuel a cur tr).1 =
          ⟨tr.run_once_sessions ++ xs, tr.compact_sessions ++ ys, tr.sleeps ++ zs⟩ := by
  intro fuel
  induction fuel with
  | zero =>
    intro a cur tr
    exact ⟨[], [], [], by simp [run_loop_zero_eq]⟩
  | succ n ih =>
    intro a cur tr
    rw [run_loop_succ_eq]
    cases h : env.attemptOf tr.run_once_sessions.length with
    | ok res => exact ⟨[cur], [], [], by simp⟩
    | fatal msg => exact ⟨[cur], [], [], by simp⟩
    | promptTooLong tk mx sid =>
      by_cases hl : MAX_RETRIES ≤ a
      · exact ⟨[cur], [], [], by simp [hl]⟩
      · by_cases hst : py_truthy (py_or sid cur)
        · by_cases hcv : py_truthy (env.compactOf tr.compact_sessions.length)
          · obtain ⟨xs, ys, zs, hx⟩ := ih (a + 1) (env.compactOf tr.compact_sessions.length)
              { tr with run_once_sessions := tr.run_once_sessions ++ [cur],
                        compact_sessions := tr.compact_sessions ++ [(py_or sid cur).getD ""] }
            refine ⟨[cur] ++ xs, [(py_or sid cur).getD ""] ++ ys, zs, ?_⟩
            simp only [hl, hst, hcv, if_true, if_false, ite_true, ite_false, hx]
            simp
          · refine ⟨[cur], [(py_or sid cur).getD ""], [], ?_⟩
            simp [hl, hst, hcv]
        · exact ⟨[cur], [], [], by simp [hl, hst]⟩
    | rateLimit reset =>
      by_cases hl : MAX_RETRIES ≤ a
      · exact ⟨[cur], [], [], by simp [hl]⟩
      · cases reset with
        | none =>
          obtain ⟨xs, ys, zs, hx⟩ := ih (a + 1) cur
            { tr with run_once_sessions := tr.run_once_sessions ++ [cur],
                      sleeps := tr.sleeps ++ [300] }
          refine ⟨[cur] ++ xs, ys, [300] ++ zs, ?_⟩
          simp only [hl, if_false, ite_false, hx]
          simp
        | some sv =>
          obtain ⟨xs, ys, zs, hx⟩ := ih (a + 1) cur
            { tr with run_once_sessions := tr.run_once_sessions ++ [cur],
                      sleeps := tr.sleeps ++ [if sv = 0 then 300 else sv] }
          refine ⟨[cur] ++ xs, ys, [if sv = 0 then 300 else sv] ++ zs, ?_⟩
          simp only [hl, if_false, ite_false, hx]
          simp

/-- At positive fuel the first element the loop appends to
    `run_once_sessions` is the current session. -/
lemma run_loop_succ_trace (env : RunEnv) (n a : Nat) (cur : Option String) (tr : RunTrace) :
    ∃ xs ys zs,
      (run_loop env (n + 1) a cur tr).1 =
        ⟨tr.run_once_sessions ++ cur :: xs, tr.compact_sessions ++ ys, tr.sleeps ++ zs⟩ := by
  rw [run_loop_succ_eq]
  cases h : env.attemptOf tr.run_once_sessions.length with
  | ok res => exact ⟨[], [], [], by simp⟩
  | fatal msg => exact ⟨[], [], [], by simp⟩
  | promptTooLong tk mx sid =>
    by_cases hl : MAX_RETRIES ≤ a
    · exact ⟨[], [], [], by simp [hl]⟩
    · by_cases hst : py_truthy (py_or sid cur)
      · by_cases hcv : py_truthy (env.compactOf tr.compact_sessions.length)
        · obtain ⟨xs, ys, zs, hx⟩ := run_loop_trace_ext env n (a + 1)
            (env.compactOf tr.compact_sessions.length)
            { tr with run_once_sessions := tr.run_once_sessions ++ [cur],
                      compact_sessions := tr.compact_sessions ++ [(py_or sid cur).getD ""] }
          refine ⟨xs, [(py_or sid cur).getD ""] ++ ys, zs, ?_⟩
          simp only [hl, hst, hcv, if_true, if_false, ite_true, ite_false, hx]
          simp
        · refine ⟨[], [(py_or sid cur).getD ""], [], ?_⟩
          simp [hl, hst, hcv]
      · exact ⟨[], [], [], by simp [hl, hst]⟩
  | rateLimit reset =>
    by_cases hl : MAX_RETRIES ≤ a
    · exact ⟨[], [], [], by simp [hl]⟩
    · cases reset with
      | none =>
        obtain ⟨xs, ys, zs, hx⟩ := run_loop_trace_ext env n (a + 1) cur
          { tr with run_once_sessions := tr.run_once_sessions ++ [cur],
                    sleeps := tr.sleeps ++ [300] }
        refine ⟨xs, ys, [300] ++ zs, ?_⟩
        simp only [hl, if_false, ite_false, hx]
        simp
      | some sv =>
        obtain ⟨xs, ys, zs, hx⟩ := run_loop_trace_ext env n (a + 1) cur
          { tr with run_once_sessions := tr.run_once_sessions ++ [cur],
                    sleeps := tr.sleeps ++ [if sv = 0 then 300 else sv] }
        refine ⟨xs, ys, [if sv = 0 then 300 else sv] ++ zs, ?_⟩
        simp only [hl, if_false, ite_false, hx]
        simp

/-- Unfolding of `run` with the pre-compaction branch written out. -/
lemma run_eq (env : RunEnv) (card_id : String) (session_id last_card_id : Option String) :
    run env card_id session_id last_card_id =
      if py_truthy session_id &&
          (match last_card_id with | none => true | some l => decide (card_id ≠ l)) then
        run_loop env (MAX_RETRIES + 1) 0
          (if py_truthy (env.compactOf 0) then env.compactOf 0 else session_id)
          ⟨[], [session_id.getD ""], []⟩
      else run_loop env (MAX_RETRIES + 1) 0 session_id ⟨[], [], []⟩ := rfl

/-- With the last processed card equal to the incoming card, the
    pre-compaction is skipped and `run` is exactly the retry loop. -/
lemma run_same_card (env : RunEnv) (card : String) (cur : Option String) :
    run env card cur (some card) =
      run_loop env (MAX_RETRIES + 1) 0 cur ⟨[], [], []⟩ := by
  simp [run]

/-- Step lemma: overflow, retries left, a compactable session, and a
    successful truthy compaction result `t` — the loop recurses on `t`. -/
lemma run_loop_ptl_step (env : RunEnv) (n a : Nat) (cur : Option String)
    (tr : RunTrace) (tk mx : Option Nat) (sid : Option String) (t : String)
    (h : env.attemptOf tr.run_once_sessions.length = .promptTooLong tk mx sid)
    (ha : ¬ MAX_RETRIES ≤ a)
    (hst : py_truthy (py_or sid cur) = true)
    (hcv : env.compactOf tr.compact_sessions.length = some t)
    (ht : t ≠ "") :
    run_loop env (n + 1) a cur tr =
      run_loop env n (a + 1) (some t)
        { tr with run_once_sessions := tr.run_once_sessions ++ [cur],
                  compact_sessions := tr.compact_sessions ++ [(py_or sid cur).getD ""] } := by
  rw [run_loop_succ_eq]
  simp [h, ha, hst, hcv, py_truthy_some_iff, ht]

/-- Step lemma: overflow, retries left, a compactable session, and a truthy
    compaction result — the loop recurses on whatever the compaction
    returned. -/
lemma run_loop_ptl_step_any (env : RunEnv) (n a : Nat) (cur : Option String)
    (tr : RunTrace) (tk mx : Option Nat) (sid : Option String)
    (h : env.attemptOf tr.run_once_sessions.length = .promptTooLong tk mx sid)
    (ha : ¬ MAX_RETRIES ≤ a)
    (hst : py_truthy (py_or sid cur) = true)
    (hcv : py_truthy (env.compactOf tr.compact_sessions.length) = true) :
    run_loop env (n + 1) a cur tr =
      run_loop env n (a + 1) (env.compactOf tr.compact_sessions.length)
        { tr with run_once_sessions := tr.run_once_sessions ++ [cur],
                  compact_sessions := tr.compact_sessions ++ [(py_or sid cur).getD ""] } := by
  rw [run_loop_succ_eq]
  simp [h, ha, hst, hcv]

/-- Step lemma: overflow with retries left but a failed (falsy) compaction. -/
lemma run_loop_ptl_compact_fail (env : RunEnv) (n a : Nat) (cur : Option String)
    (tr : RunTrace) (tk mx : Option Nat) (sid : Option String)
    (h : env.attemptOf tr.run_once_sessions.length = .promptTooLong tk mx sid)
    (ha : ¬ MAX_RETRIES ≤ a)
    (hst : py_truthy (py_or sid cur) = true)
    (hcv : py_truthy (env.compactOf tr.compact_sessions.length) = false) :
    run_loop env (n + 1) a cur tr =
      ({ tr with run_once_sessions := tr.run_once_sessions ++ [cur],
                 compact_sessions := tr.compact_sessions ++ [(py_or sid cur).getD ""] },
       .err "Prompt too long and compact failed") := by
  rw [run_loop_succ_eq]
  simp [h, ha, hst, hcv]

/-- Step lemma: overflow with retries left but no truthy session to
    compact — terminal error without a compaction call. -/
lemma run_loop_ptl_no_session (env : RunEnv) (n a : Nat) (cur : Option String)
    (tr : RunTrace) (tk mx : Option Nat) (sid : Option String)
    (h : env.attemptOf tr.run_once_sessions.length = .promptTooLong tk mx sid)
    (ha : ¬ MAX_RETRIES ≤ a)
    (hst : py_truthy (py_or sid cur) = false) :
    run_loop env (n + 1) a cur tr =
      ({ tr with run_once_sessions := tr.run_once_sessions ++ [cur] },
       .err "Prompt too long") := by
  rw [run_loop_succ_eq]
  simp [h, ha, hst]

/-- Step lemma: overflow with no retries left — terminal error. -/
lemma run_loop_ptl_giveup (env : RunEnv) (n a : Nat) (cur : Option String)
    (tr : RunTrace) (tk mx : Option Nat) (sid : Option String)
    (h : env.attemptOf tr.run_once_sessions.length = .promptTooLong tk mx sid)
    (ha : MAX_RETRIES ≤ a) :
    run_loop env (n + 1) a cur tr =
      ({ tr with run_once_sessions := tr.run_once_sessions ++ [cur] },
       .err "Prompt too long") := by
  rw [run_loop_succ_eq]
  simp [h, ha]

/-- Step lemma: throttled with no parsed reset time and retries left — the
    loop sleeps 300 seconds and recurses. -/
lemma run_loop_rl_none_step (env : RunEnv) (n a : Nat) (cur : Option String)
    (tr : RunTrace)
    (h : env.attemptOf tr.run_once_sessions.length = .rateLimit none)
    (ha : ¬ MAX_RETRIES ≤ a) :
    run_loop env (n + 1) a cur tr =
      run_loop env n (a + 1) cur
        { tr with run_once_sessions := tr.run_once_sessions ++ [cur],
                  sleeps := tr.sleeps ++ [300] } := by
  rw [run_loop_succ_eq]
  simp [h, ha]

/-! ## C4: compaction and handle reuse -/

/-- Claim C4 is refuted: when the compact subprocess reports the same
    session id it was given, a successful `_run_compact` returns the very
    handle it received, and the retry loop then re-attempts execution with
    the same handle `"sess"` that produced the overflow on every attempt
    (the trace below records the session passed to each `_run_once`). -/
theorem c4_counterexample :
    run_compact "sess" 0 [OutLine.json (some "sess") none] = some "sess" ∧
    (run ⟨fun _ => .promptTooLong none none (some "sess"), fun _ => some "sess", none⟩
        "card" (some "sess") (some "card")).1.run_once_sessions =
      [some "sess", some "sess", some "sess"] := by
  exact ⟨rfl, rfl⟩

/-- Claim C4 as amended: after a context-overflow failure with a successful
    compaction, the retry always runs with exactly the handle the
    compaction returned — the code never enforces that this handle differs
    from the one that overflowed. -/
theorem c4_theorem (env : RunEnv) (card : String) (cur : Option String)
    (tk mx : Option Nat) (sid : Option String) (t : String)
    (h0 : env.attemptOf 0 = .promptTooLong tk mx sid)
    (hstc : py_truthy (py_or sid cur) = true)
    (hc : env.compactOf 0 = some t) (ht : t ≠ "") :
    (run env card cur (some card)).1.run_once_sessions[1]? = some (some t) := by
  have hlt0 : ¬ MAX_RETRIES ≤ 0 := by decide
  have e1 : run_loop env (MAX_RETRIES + 1) 0 cur ⟨[], [], []⟩ =
      run_loop env 2 1 (some t) ⟨[cur], [(py_or sid cur).getD ""], []⟩ :=
    run_loop_ptl_step env MAX_RETRIES 0 cur ⟨[], [], []⟩ tk mx sid t h0 hlt0 hstc hc ht
  obtain ⟨xs, ys, zs, hx⟩ :=
    run_loop_succ_trace env 1 1 (some t) ⟨[cur], [(py_or sid cur).getD ""], []⟩
  have e2 : (run_loop env 2 1 (some t) ⟨[cur], [(py_or sid cur).getD ""], []⟩).1 =
      ⟨cur :: some t :: xs, [(py_or sid cur).getD ""] ++ ys, zs⟩ := hx
  rw [run_same_card, e1, e2]
  simp

/-- Witness for the amended C4 theorem at a concrete environment. -/
theorem c4_witness :
    (run ⟨fun _ => .promptTooLong none none (some "x"), fun _ => some "n", none⟩
        "c" (some "c0") (some "c")).1.run_once_sessions[1]? = some (some "n") := by
  exact c4_theorem _ "c" (some "c0") none none (some "x") "n" rfl (by decide) rfl
    (by decide)

/-! ## C5: three attempts, two compactions, terminal error -/

/-- Claim C5: with `MAX_RETRIES = 2`, when every `_run_once` raises a
    context-overflow error and every compaction succeeds (and the incoming
    card equals the last processed one, so no pre-compaction runs), `run`
    performs exactly three execution attempts, invokes `_run_compact`
    exactly twice, and then raises a terminal error. -/
theorem c5_theorem (env : RunEnv) (card s : String) (hs : s ≠ "")
    (hA : ∀ i, ∃ tk mx sid, env.attemptOf i = .promptTooLong tk mx sid)
    (hC : ∀ j, ∃ t, env.compactOf j = some t ∧ t ≠ "") :
    (run env card (some s) (some card)).1.run_once_sessions.length = 3 ∧
    (run env card (some s) (some card)).1.compact_sessions.length = 2 ∧
    (run env card (some s) (some card)).2 = .err "Prompt too long" := by
  obtain ⟨tk0, mx0, sid0, h0⟩ := hA 0
  obtain ⟨tk1, mx1, sid1, h1⟩ := hA 1
  obtain ⟨tk2, mx2, sid2, h2⟩ := hA 2
  obtain ⟨t0, hc0, ht0⟩ := hC 0
  obtain ⟨t1, hc1, ht1⟩ := hC 1
  have hs' : py_truthy (some s) = true := by simp [py_truthy_some_iff, hs]
  have ht0' : py_truthy (some t0) = true := by simp [py_truthy_some_iff, ht0]
  have ht1' : py_truthy (some t1) = true := by simp [py_truthy_some_iff, ht1]
  have hlt0 : ¬ MAX_RETRIES ≤ 0 := by decide
  have hlt1 : ¬ MAX_RETRIES ≤ 1 := by decide
  have hlt2 : MAX_RETRIES ≤ 2 := by decide
  have hst0 : py_truthy (py_or sid0 (some s)) = true := by
    rw [py_truthy_py_or, hs']; simp
  have hst1 : py_truthy (py_or sid1 (some t0)) = true := by
    rw [py_truthy_py_or, ht0']; simp
  have e1 : run_loop env (MAX_RETRIES + 1) 0 (some s) ⟨[], [], []⟩ =
      run_loop env 2 1 (some t0)
        ⟨[some s], [(py_or sid0 (some s)).getD ""], []⟩ :=
    run_loop_ptl_step env MAX_RETRIES 0 (some s) ⟨[], [], []⟩ tk0 mx0 sid0 t0
      h0 hlt0 hst0 hc0 ht0
  have e2 : run_loop env 2 1 (some t0)
        ⟨[some s], [(py_or sid0 (some s)).getD ""], []⟩ =
      run_loop env 1 2 (some t1)
        ⟨[some s, some t0],
         [(py_or sid0 (some s)).getD "", (py_or sid1 (some t0)).getD ""], []⟩ :=
    run_loop_ptl_step env 1 1 (some t0)
      ⟨[some s], [(py_or sid0 (some s)).getD ""], []⟩ tk1 mx1 sid1 t1
      h1 hlt1 hst1 hc1 ht1
  have e3 : run_loop env 1 2 (some t1)
        ⟨[some s, some t0],
         [(py_or sid0 (some s)).getD "", (py_or sid1 (some t0)).getD ""], []⟩ =
      (⟨[some s, some t0, some t1],
        [(py_or sid0 (some s)).getD "", (py_or sid1 (some t0)).getD ""], []⟩,
       .err "Prompt too long") :=
    run_loop_ptl_giveup env 0 2 (some t1)
      ⟨[some s, some t0],
       [(py_or sid0 (some s)).getD "", (py_or sid1 (some t0)).getD ""], []⟩
      tk2 mx2 sid2 h2 hlt2
  rw [run_same_card, e1, e2, e3]
  exact ⟨rfl, rfl, rfl⟩

/-- Witness for C5 at a concrete environment in which every attempt
    overflows and every compaction succeeds. -/
theorem c5_witness :
    (run ⟨fun _ => .promptTooLong none none none, fun _ => some "n", none⟩
        "c" (some "s") (some "c")).1.run_once_sessions.length = 3 ∧
    (run ⟨fun _ => .promptTooLong none none none, fun _ => some "n", none⟩
        "c" (some "s") (some "c")).1.compact_sessions.length = 2 ∧
    (run ⟨fun _ => .promptTooLong none none none, fun _ => some "n", none⟩
        "c" (some "s") (some "c")).2 = .err "Prompt too long" := by
  exact c5_theorem _ "c" "s" (by decide)
    (fun i => ⟨none, none, none, rfl⟩)
    (fun j => ⟨"n", rfl, by decide⟩)

/-! ## C6: which session gets compacted -/

/-- Claim C6: on a context-overflow failure, the session compacted is
    `e.session_id or current_session_id` — the handle embedded in the failed
    output of the failed run itself when truthy, otherwise the current handle; when
    neither is truthy, `run` raises the terminal error without invoking
    compaction at all. -/
theorem c6_theorem (env : RunEnv) (card : String) (cur : Option String)
    (tk mx : Option Nat) (sid : Option String)
    (h0 : env.attemptOf 0 = .promptTooLong tk mx sid) :
    (py_truthy (py_or sid cur) = true →
      (run env card cur (some card)).1.compact_sessions.head? = py_or sid cur) ∧
    (py_truthy (py_or sid cur) = false →
      (run env card cur (some card)).1.compact_sessions = [] ∧
      (run env card cur (some card)).2 = .err "Prompt too long") := by
  have hlt0 : ¬ MAX_RETRIES ≤ 0 := by decide
  constructor
  · intro hst
    cases hcv : py_truthy (env.compactOf 0) with
    | false =>
      have e1 : run_loop env (MAX_RETRIES + 1) 0 cur ⟨[], [], []⟩ =
          (⟨[cur], [(py_or sid cur).getD ""], []⟩,
           .err "Prompt too long and compact failed") :=
        run_loop_ptl_compact_fail env MAX_RETRIES 0 cur ⟨[], [], []⟩ tk mx sid
          h0 hlt0 hst hcv
      rw [run_same_card, e1]
      simp [py_truthy_getD hst]
    | true =>
      have e1 : run_loop env (MAX_RETRIES + 1) 0 cur ⟨[], [], []⟩ =
          run_loop env 2 1 (env.compactOf 0)
            ⟨[cur], [(py_or sid cur).getD ""], []⟩ :=
        run_loop_ptl_step_any env MAX_RETRIES 0 cur ⟨[], [], []⟩ tk mx sid
          h0 hlt0 hst hcv
      obtain ⟨xs, ys, zs, hx⟩ := run_loop_trace_ext env 2 1 (env.compactOf 0)
        ⟨[cur], [(py_or sid cur).getD ""], []⟩
      have e2 : (run_loop env 2 1 (env.compactOf 0)
            ⟨[cur], [(py_or sid cur).getD ""], []⟩).1 =
          ⟨[cur] ++ xs, [(py_or sid cur).getD ""] ++ ys, zs⟩ := hx
      rw [run_same_card, e1, e2]
      simp [py_truthy_getD hst]
  · intro hst
    have e1 : run_loop env (MAX_RETRIES + 1) 0 cur ⟨[], [], []⟩ =
        (⟨[cur], [], []⟩, .err "Prompt too long") :=
      run_loop_ptl_no_session env MAX_RETRIES 0 cur ⟨[], [], []⟩ tk mx sid
        h0 hlt0 hst
    rw [run_same_card, e1]
    exact ⟨rfl, rfl⟩

/-- Witness for C6 at a concrete environment: the failed output embeds
    session "e2", two handles are available, and "e2" is compacted. -/
theorem c6_witness :
    (run ⟨fun _ => .promptTooLong none none (some "e2"), fun _ => some "n", none⟩
        "c" (some "c0") (some "c")).1.compact_sessions.head? =
      py_or (some "e2") (some "c0") := by
  exact (c6_theorem _ "c" (some "c0") none none (some "e2") rfl).1 (by decide)

/-! ## C8: default backoff of 300 seconds -/

/-- Claim C8: when the first attempt raises a throttling error with no
    recoverable reset time, `run` sleeps exactly the fixed default of 300
    seconds and then makes another attempt. -/
theorem c8_theorem (env : RunEnv) (card : String) (sess last : Option String)
    (h0 : env.attemptOf 0 = .rateLimit none) :
    (run env card sess last).1.sleeps.head? = some 300 ∧
    2 ≤ (run env card sess last).1.run_once_sessions.length := by
  have hlt0 : ¬ MAX_RETRIES ≤ 0 := by decide
  have key : ∀ (cur0 : Option String) (cs : List String),
      (run_loop env (MAX_RETRIES + 1) 0 cur0 ⟨[], cs, []⟩).1.sleeps.head? = some 300 ∧
      2 ≤ (run_loop env (MAX_RETRIES + 1) 0 cur0 ⟨[], cs, []⟩).1.run_once_sessions.length := by
    intro cur0 cs
    have e1 : run_loop env (MAX_RETRIES + 1) 0 cur0 ⟨[], cs, []⟩ =
        run_loop env 2 1 cur0 ⟨[cur0], cs, [300]⟩ :=
      run_loop_rl_none_step env MAX_RETRIES 0 cur0 ⟨[], cs, []⟩ h0 hlt0
    obtain ⟨xs, ys, zs, hx⟩ := run_loop_succ_trace env 1 1 cur0 ⟨[cur0], cs, [300]⟩
    have e2 : (run_loop env 2 1 cur0 ⟨[cur0], cs, [300]⟩).1 =
        ⟨cur0 :: cur0 :: xs, cs ++ ys, [300] ++ zs⟩ := hx
    rw [e1, e2]
    simp
  rw [run_eq]
  by_cases hb : (py_truthy sess &&
      (match last with | none => true | some l => decide (card ≠ l))) = true
  · rw [if_pos hb]
    exact key _ [sess.getD ""]
  · rw [if_neg hb]
    exact key sess []

/-- Witness for C8 at a concrete environment. -/
theorem c8_witness :
    (run ⟨fun _ => .rateLimit none, fun _ => none, none⟩ "c" (some "s") none).1.sleeps.head? =
      some 300 ∧
    2 ≤ (run ⟨fun _ => .rateLimit none, fun _ => none, none⟩
        "c" (some "s") none).1.run_once_sessions.length := by
  exact c8_theorem _ "c" (some "s") none rfl

/-! ## Dictionary lemmas for the rollup -/

lemma agg_cost (b s : StatsBucket) :
    (aggregate_into_bucket b s).total_cost_cents =
      b.total_cost_cents + s.total_cost_cents := rfl

lemma agg_empty (s : StatsBucket) : aggregate_into_bucket empty_bucket s = s := by
  cases s
  simp [aggregate_into_bucket, empty_bucket]

lemma total_cost_nil : total_cost [] = 0 := rfl

lemma total_cost_cons (kv : DateKey × StatsBucket) (m : StatsMap) :
    total_cost (kv :: m) = kv.2.total_cost_cents + total_cost m := by
  simp [total_cost]

lemma total_cost_append (a b : StatsMap) :
    total_cost (a ++ b) = total_cost a + total_cost b := by
  simp [total_cost]

lemma has_key_iff (m : StatsMap) (k : DateKey) :
    has_key m k = true ↔ k ∈ keys m := by
  simp [has_key, keys, List.any_eq_true]

lemma keys_add_to_key (m : StatsMap) (k : DateKey) (s : StatsBucket) :
    keys (add_to_key m k s) = keys m := by
  simp only [keys, add_to_key, List.map_map]
  apply List.map_congr_left
  intro kv _
  by_cases h : kv.1 = k <;> simp [h]

lemma add_to_key_of_not_mem {m : StatsMap} {k : DateKey} (s : StatsBucket)
    (h : k ∉ keys m) : add_to_key m k s = m := by
  induction m with
  | nil => rfl
  | cons kv rest ih =>
    simp only [keys, List.map_cons, List.mem_cons] at h
    push_neg at h
    have h1 : ¬ kv.1 = k := fun he => h.1 he.symm
    simp only [add_to_key, List.map_cons, if_neg h1]
    have := ih (by simpa [keys] using h.2)
    simp only [add_to_key] at this
    rw [this]

lemma total_cost_add_to_key {m : StatsMap} {k : DateKey} (s : StatsBucket)
    (hnd : keys_nodup m) (hk : k ∈ keys m) :
    total_cost (add_to_key m k s) = total_cost m + s.total_cost_cents := by
  induction m with
  | nil => simp [keys] at hk
  | cons kv rest ih =>
    simp only [keys_nodup, keys, List.map_cons, List.nodup_cons] at hnd
    by_cases hh : kv.1 = k
    · have hrest : k ∉ keys rest := by
        rw [← hh]; exact fun hmem => hnd.1 (by simpa [keys] using hmem)
      simp only [add_to_key, List.map_cons, if_pos hh]
      have hr := add_to_key_of_not_mem (m := rest) s hrest
      simp only [add_to_key] at hr
      rw [hr, total_cost_cons, total_cost_cons, agg_cost]
      omega
    · have hkrest : k ∈ keys rest := by
        simp only [keys, List.map_cons, List.mem_cons] at hk
        rcases hk with h | h
        · exact absurd h.symm hh
        · simpa [keys] using h
      simp only [add_to_key, List.map_cons, if_neg hh]
      have hthis := ih (by simpa [keys_nodup, keys] using hnd.2) hkrest
      simp only [add_to_key] at hthis
      rw [total_cost_cons, hthis, total_cost_cons]
      omega

lemma keys_nodup_add_to_key {m : StatsMap} (k : DateKey) (s : StatsBucket)
    (h : keys_nodup m) : keys_nodup (add_to_key m k s) := by
  simpa [keys_nodup, keys_add_to_key] using h

lemma total_cost_dict_add {m : StatsMap} (k : DateKey) (s : StatsBucket)
    (hnd : keys_nodup m) :
    total_cost (dict_add m k s) = total_cost m + s.total_cost_cents := by
  unfold dict_add
  by_cases h : has_key m k = true
  · rw [if_pos h]
    exact total_cost_add_to_key s hnd ((has_key_iff m k).mp h)
  · rw [if_neg h, total_cost_append, total_cost_cons, total_cost_nil, agg_empty]
    simp

lemma keys_nodup_dict_add {m : StatsMap} (k : DateKey) (s : StatsBucket)
    (hnd : keys_nodup m) : keys_nodup (dict_add m k s) := by
  unfold dict_add
  by_cases h : has_key m k = true
  · rw [if_pos h]
    exact keys_nodup_add_to_key k s hnd
  · rw [if_neg h]
    have hk : k ∉ keys m := fun hmem => h ((has_key_iff m k).mpr hmem)
    simp only [keys_nodup, keys, List.map_append, List.map_cons, List.map_nil,
      List.nodup_append]
    have hdisj : List.Disjoint (keys m) [k] := by
      intro x hx hk2
      simp only [List.mem_singleton] at hk2
      exact hk (hk2 ▸ hx)
    exact ⟨hnd, List.nodup_singleton k, hdisj⟩

lemma keys_dict_add_sub {m : StatsMap} {k : DateKey} {s : StatsBucket} :
    ∀ x ∈ keys (dict_add m k s), x ∈ keys m ∨ x = k := by
  intro x hx
  unfold dict_add at hx
  by_cases h : has_key m k = true
  · rw [if_pos h, keys_add_to_key] at hx
    exact Or.inl hx
  · rw [if_neg h] at hx
    simp only [keys, List.map_append, List.map_cons, List.map_nil,
      List.mem_append, List.mem_cons, List.not_mem_nil, or_false] at hx
    rcases hx with hx | hx
    · exact Or.inl hx
    · exact Or.inr hx

lemma total_cost_set_or_merge {m : StatsMap} (k : DateKey) (s : StatsBucket)
    (hnd : keys_nodup m) :
    total_cost (set_or_merge m k s) = total_cost m + s.total_cost_cents := by
  unfold set_or_merge
  by_cases h : has_key m k = true
  · rw [if_pos h]
    exact total_cost_add_to_key s hnd ((has_key_iff m k).mp h)
  · rw [if_neg h, total_cost_append, total_cost_cons, total_cost_nil]
    simp

lemma keys_nodup_set_or_merge {m : StatsMap} (k : DateKey) (s : StatsBucket)
    (hnd : keys_nodup m) : keys_nodup (set_or_merge m k s) := by
  unfold set_or_merge
  by_cases h : has_key m k = true
  · rw [if_pos h]
    exact keys_nodup_add_to_key k s hnd
  · rw [if_neg h]
    have hk : k ∉ keys m := fun hmem => h ((has_key_iff m k).mpr hmem)
    simp only [keys_nodup, keys, List.map_append, List.map_cons, List.map_nil,
      List.nodup_append]
    have hdisj : List.Disjoint (keys m) [k] := by
      intro x hx hk2
      simp only [List.mem_singleton] at hk2
      exact hk (hk2 ▸ hx)
    exact ⟨hnd, List.nodup_singleton k, hdisj⟩

lemma keys_set_or_merge_sub {m : StatsMap} {k : DateKey} {s : StatsBucket} :
    ∀ x ∈ keys (set_or_merge m k s), x ∈ keys m ∨ x = k := by
  intro x hx
  unfold set_or_merge at hx
  by_cases h : has_key m k = true
  · rw [if_pos h, keys_add_to_key] at hx
    exact Or.inl hx
  · rw [if_neg h] at hx
    simp only [keys, List.map_append, List.map_cons, List.map_nil,
      List.mem_append, List.mem_cons, List.not_mem_nil, or_false] at hx
    rcases hx with hx | hx
    · exact Or.inl hx
    · exact Or.inr hx

lemma total_cost_merge_new (new : StatsMap) :
    ∀ (m : StatsMap), keys_nodup m →
      total_cost (merge_new m new) = total_cost m + total_cost new := by
  induction new with
  | nil => intro m _; simp [merge_new, total_cost_nil]
  | cons kv rest ih =>
    intro m hnd
    have h1 : merge_new m (kv :: rest) = merge_new (set_or_merge m kv.1 kv.2) rest := rfl
    rw [h1, ih _ (keys_nodup_set_or_merge kv.1 kv.2 hnd),
      total_cost_set_or_merge kv.1 kv.2 hnd, total_cost_cons]
    omega

lemma keys_nodup_merge_new (new : StatsMap) :
    ∀ (m : StatsMap), keys_nodup m → keys_nodup (merge_new m new) := by
  induction new with
  | nil => intro m h; exact h
  | cons kv rest ih =>
    intro m hnd
    exact ih _ (keys_nodup_set_or_merge kv.1 kv.2 hnd)

lemma keys_merge_new_sub (new : StatsMap) :
    ∀ (m : StatsMap) (x : DateKey),
      x ∈ keys (merge_new m new) → x ∈ keys m ∨ x ∈ keys new := by
  induction new with
  | nil => intro m x hx; exact Or.inl hx
  | cons kv rest ih =>
    intro m x hx
    have h1 : merge_new m (kv :: rest) = merge_new (set_or_merge m kv.1 kv.2) rest := rfl
    rw [h1] at hx
    rcases ih _ x hx with h | h
    · rcases keys_set_or_merge_sub x h with h2 | h2
      · exact Or.inl h2
      · exact Or.inr (by simp [keys, h2])
    · exact Or.inr (by simp [keys] at h ⊢; exact Or.inr h)

/-! ## Classification lemmas -/

lemma removable1_not_daily {today : Nat} {k : DateKey}
    (h : ∀ y m d, k ≠ DateKey.daily y m d) : removable1 today k = false := by
  cases k with
  | daily y m d => exact absurd rfl (h y m d)
  | weekly y w => rfl
  | monthly y m => rfl

lemma removable2_not_weekly {today : Nat} {k : DateKey}
    (h : ∀ y w, k ≠ DateKey.weekly y w) : removable2 today k = false := by
  cases k with
  | daily y m d => rfl
  | weekly y w => exact absurd rfl (h y w)
  | monthly y m => rfl

lemma classify_weekly_not_toWeekly (today y w iy iw : Nat) :
    classify_weekly today y w ≠ .toWeekly iy iw := by
  unfold classify_weekly
  cases week_start_ordinal y w with
  | none => simp
  | some ws =>
    simp only []
    split <;> simp

/-! ## The two classification passes of the rollup -/

/-- Complete characterisation of the first pass of `_rollup_old_dates`. -/
lemma rollup1_fold (today : Nat) :
    ∀ (l : StatsMap) (acc : RollupAcc),
      keys_nodup acc.weekly_buckets → keys_nodup acc.monthly_buckets →
      ((l.foldl (rollup_step1 today) acc).to_remove =
          acc.to_remove ++ (l.filter fun kv => removable1 today kv.1).map Prod.fst) ∧
      keys_nodup (l.foldl (rollup_step1 today) acc).weekly_buckets ∧
      keys_nodup (l.foldl (rollup_step1 today) acc).monthly_buckets ∧
      (total_cost (l.foldl (rollup_step1 today) acc).weekly_buckets +
          total_cost (l.foldl (rollup_step1 today) acc).monthly_buckets =
        total_cost acc.weekly_buckets + total_cost acc.monthly_buckets +
          total_cost (l.filter fun kv => removable1 today kv.1)) ∧
      (∀ x ∈ keys (l.foldl (rollup_step1 today) acc).weekly_buckets,
        x ∈ keys acc.weekly_buckets ∨ ∃ y w, x = DateKey.weekly y w) ∧
      (∀ x ∈ keys (l.foldl (rollup_step1 today) acc).monthly_buckets,
        x ∈ keys acc.monthly_buckets ∨ ∃ y mo, x = DateKey.monthly y mo) := by
  intro l
  induction l with
  | nil =>
    intro acc h1 h2
    exact ⟨by simp, h1, h2, by simp [total_cost_nil],
      fun x hx => Or.inl hx, fun x hx => Or.inl hx⟩
  | cons kv rest ih =>
    intro acc h1 h2
    obtain ⟨k, b⟩ := kv
    cases k with
    | daily y mo d =>
      cases hcd : classify_daily today y mo d with
      | keep =>
        have hrem : removable1 today (DateKey.daily y mo d) = false := by
          simp [removable1, hcd]
        have hstep : rollup_step1 today acc (DateKey.daily y mo d, b) = acc := by
          simp [rollup_step1, hcd]
        rw [List.foldl_cons, hstep]
        have hfil : (((DateKey.daily y mo d, b) :: rest).filter
            fun kv => removable1 today kv.1) =
            rest.filter fun kv => removable1 today kv.1 := by
          simp [List.filter_cons, hrem]
        rw [hfil]
        exact ih acc h1 h2
      | toWeekly iy iw =>
        have hrem : removable1 today (DateKey.daily y mo d) = true := by
          simp [removable1, hcd]
        have hstep : rollup_step1 today acc (DateKey.daily y mo d, b) =
            { acc with to_remove := acc.to_remove ++ [DateKey.daily y mo d],
                       weekly_buckets :=
                         dict_add acc.weekly_buckets (.weekly iy iw) b } := by
          simp [rollup_step1, hcd]
        rw [List.foldl_cons, hstep]
        have hfil : (((DateKey.daily y mo d, b) :: rest).filter
            fun kv => removable1 today kv.1) =
            (DateKey.daily y mo d, b) :: rest.filter fun kv => removable1 today kv.1 := by
          simp [List.filter_cons, hrem]
        rw [hfil]
        obtain ⟨ht, hw, hm, hs, hkw, hkm⟩ := ih
          { acc with to_remove := acc.to_remove ++ [DateKey.daily y mo d],
                     weekly_buckets := dict_add acc.weekly_buckets (.weekly iy iw) b }
          (keys_nodup_dict_add _ b h1) h2
        refine ⟨?_, hw, hm, ?_, ?_, ?_⟩
        · rw [ht]; simp
        · rw [hs]
          simp only [total_cost_cons]
          rw [total_cost_dict_add _ b h1]
          omega
        · intro x hx
          rcases hkw x hx with hx2 | hx2
          · rcases keys_dict_add_sub x hx2 with hx3 | hx3
            · exact Or.inl hx3
            · exact Or.inr ⟨iy, iw, hx3⟩
          · exact Or.inr hx2
        · exact hkm
      | toMonthly my mm =>
        have hrem : removable1 today (DateKey.daily y mo d) = true := by
          simp [removable1, hcd]
        have hstep : rollup_step1 today acc (DateKey.daily y mo d, b) =
            { acc with to_remove := acc.to_remove ++ [DateKey.daily y mo d],
                       monthly_buckets :=
                         dict_add acc.monthly_buckets (.monthly my mm) b } := by
          simp [rollup_step1, hcd]
        rw [List.foldl_cons, hstep]
        have hfil : (((DateKey.daily y mo d, b) :: rest).filter
            fun kv => removable1 today kv.1) =
            (DateKey.daily y mo d, b) :: rest.filter fun kv => removable1 today kv.1 := by
          simp [List.filter_cons, hrem]
        rw [hfil]
        obtain ⟨ht, hw, hm, hs, hkw, hkm⟩ := ih
          { acc with to_remove := acc.to_remove ++ [DateKey.daily y mo d],
                     monthly_buckets := dict_add acc.monthly_buckets (.monthly my mm) b }
          h1 (keys_nodup_dict_add _ b h2)
        refine ⟨?_, hw, hm, ?_, ?_, ?_⟩
        · rw [ht]; simp
        · rw [hs]
          simp only [total_cost_cons]
          rw [total_cost_dict_add _ b h2]
          omega
        · exact hkw
        · intro x hx
          rcases hkm x hx with hx2 | hx2
          · rcases keys_dict_add_sub x hx2 with hx3 | hx3
            · exact Or.inl hx3
            · exact Or.inr ⟨my, mm, hx3⟩
          · exact Or.inr hx2
    | weekly y w =>
      have hrem : removable1 today (DateKey.weekly y w) = false := rfl
      have hstep : rollup_step1 today acc (DateKey.weekly y w, b) = acc := rfl
      rw [List.foldl_cons, hstep]
      have hfil : (((DateKey.weekly y w, b) :: rest).filter
          fun kv => removable1 today kv.1) =
          rest.filter fun kv => removable1 today kv.1 := by
        simp [List.filter_cons, hrem]
      rw [hfil]
      exact ih acc h1 h2
    | monthly y mo =>
      have hrem : removable1 today (DateKey.monthly y mo) = false := rfl
      have hstep : rollup_step1 today acc (DateKey.monthly y mo, b) = acc := rfl
      rw [List.foldl_cons, hstep]
      have hfil : (((DateKey.monthly y mo, b) :: rest).filter
          fun kv => removable1 today kv.1) =
          rest.filter fun kv => removable1 today kv.1 := by
        simp [List.filter_cons, hrem]
      rw [hfil]
      exact ih acc h1 h2

/-- Complete characterisation of the second pass of `_rollup_old_dates`. -/
lemma rollup2_fold (today : Nat) :
    ∀ (l : StatsMap) (acc : RollupAcc),
      keys_nodup acc.monthly_buckets →
      ((l.foldl (rollup_step2 today) acc).weekly_buckets = acc.weekly_buckets) ∧
      ((l.foldl (rollup_step2 today) acc).to_remove =
          acc.to_remove ++ (l.filter fun kv => removable2 today kv.1).map Prod.fst) ∧
      keys_nodup (l.foldl (rollup_step2 today) acc).monthly_buckets ∧
      (total_cost (l.foldl (rollup_step2 today) acc).monthly_buckets =
        total_cost acc.monthly_buckets +
          total_cost (l.filter fun kv => removable2 today kv.1)) ∧
      (∀ x ∈ keys (l.foldl (rollup_step2 today) acc).monthly_buckets,
        x ∈ keys acc.monthly_buckets ∨ ∃ y mo, x = DateKey.monthly y mo) := by
  intro l
  induction l with
  | nil =>
    intro acc h2
    exact ⟨rfl, by simp, h2, by simp [total_cost_nil], fun x hx => Or.inl hx⟩
  | cons kv rest ih =>
    intro acc h2
    obtain ⟨k, b⟩ := kv
    cases k with
    | weekly y w =>
      cases hcw : classify_weekly today y w with
      | keep =>
        have hrem : removable2 today (DateKey.weekly y w) = false := by
          simp [removable2, hcw]
        have hstep : rollup_step2 today acc (DateKey.weekly y w, b) = acc := by
          simp [rollup_step2, hcw]
        rw [List.foldl_cons, hstep]
        have hfil : (((DateKey.weekly y w, b) :: rest).filter
            fun kv => removable2 today kv.1) =
            rest.filter fun kv => removable2 today kv.1 := by
          simp [List.filter_cons, hrem]
        rw [hfil]
        exact ih acc h2
      | toWeekly iy iw => exact absurd hcw (classify_weekly_not_toWeekly today y w iy iw)
      | toMonthly my mm =>
        have hrem : removable2 today (DateKey.weekly y w) = true := by
          simp [removable2, hcw]
        have hstep : rollup_step2 today acc (DateKey.weekly y w, b) =
            { acc with to_remove := acc.to_remove ++ [DateKey.weekly y w],
                       monthly_buckets :=
                         dict_add acc.monthly_buckets (.monthly my mm) b } := by
          simp [rollup_step2, hcw]
        rw [List.foldl_cons, hstep]
        have hfil : (((DateKey.weekly y w, b) :: rest).filter
            fun kv => removable2 today kv.1) =
            (DateKey.weekly y w, b) :: rest.filter fun kv => removable2 today kv.1 := by
          simp [List.filter_cons, hrem]
        rw [hfil]
        obtain ⟨hweq, ht, hm, hs, hkm⟩ := ih
          { acc with to_remove := acc.to_remove ++ [DateKey.weekly y w],
                     monthly_buckets := dict_add acc.monthly_buckets (.monthly my mm) b }
          (keys_nodup_dict_add _ b h2)
        refine ⟨hweq, ?_, hm, ?_, ?_⟩
        · rw [ht]; simp
        · rw [hs]
          simp only [total_cost_cons]
          rw [total_cost_dict_add _ b h2]
          omega
        · intro x hx
          rcases hkm x hx with hx2 | hx2
          · rcases keys_dict_add_sub x hx2 with hx3 | hx3
            · exact Or.inl hx3
            · exact Or.inr ⟨my, mm, hx3⟩
          · exact Or.inr hx2
    | daily y mo d =>
      have hrem : removable2 today (DateKey.daily y mo d) = false := rfl
      have hstep : rollup_step2 today acc (DateKey.daily y mo d, b) = acc := rfl
      rw [List.foldl_cons, hstep]
      have hfil : (((DateKey.daily y mo d, b) :: rest).filter
          fun kv => removable2 today kv.1) =
          rest.filter fun kv => removable2 today kv.1 := by
        simp [List.filter_cons, hrem]
      rw [hfil]
      exact ih acc h2
    | monthly y mo =>
      have hrem : removable2 today (DateKey.monthly y mo) = false := rfl
      have hstep : rollup_step2 today acc (DateKey.monthly y mo, b) = acc := rfl
      rw [List.foldl_cons, hstep]
      have hfil : (((DateKey.monthly y mo, b) :: rest).filter
          fun kv => removable2 today kv.1) =
          rest.filter fun kv => removable2 today kv.1 := by
        simp [List.filter_cons, hrem]
      rw [hfil]
      exact ih acc h2

/-! ## Filter lemmas and the rollup specification -/

lemma total_cost_filter_partition (p : DateKey × StatsBucket → Bool) (l : StatsMap) :
    total_cost l = total_cost (l.filter p) + total_cost (l.filter fun kv => !(p kv)) := by
  induction l with
  | nil => simp [total_cost_nil]
  | cons kv rest ih =>
    by_cases h : p kv = true
    · simp [List.filter_cons, h, total_cost_cons, ih]
      omega
    · have h2 : p kv = false := by revert h; cases p kv <;> simp
      simp [List.filter_cons, h2, total_cost_cons, ih]
      omega

lemma rem1_rem2_not_both (today : Nat) (k : DateKey) :
    ¬(removable1 today k = true ∧ removable2 today k = true) := by
  cases k with
  | daily y m d => rintro ⟨_, h2⟩; exact absurd h2 (by simp [removable2])
  | weekly y w => rintro ⟨h1, _⟩; exact absurd h1 (by simp [removable1])
  | monthly y m => rintro ⟨h1, _⟩; exact absurd h1 (by simp [removable1])

lemma total_cost_filter_removable (today : Nat) (l : StatsMap) :
    total_cost (l.filter fun kv => removable today kv.1) =
      total_cost (l.filter fun kv => removable1 today kv.1) +
      total_cost (l.filter fun kv => removable2 today kv.1) := by
  induction l with
  | nil => simp [total_cost_nil]
  | cons kv rest ih =>
    cases hr1 : removable1 today kv.1 <;> cases hr2 : removable2 today kv.1
    · have hr : removable today kv.1 = false := by simp [removable, hr1, hr2]
      simp [List.filter_cons, hr, hr1, hr2, ih]
    · have hr : removable today kv.1 = true := by simp [removable, hr1, hr2]
      simp [List.filter_cons, hr, hr1, hr2, total_cost_cons, ih]
      omega
    · have hr : removable today kv.1 = true := by simp [removable, hr1, hr2]
      simp [List.filter_cons, hr, hr1, hr2, total_cost_cons, ih]
      omega
    · exact absurd ⟨hr1, hr2⟩ (rem1_rem2_not_both today kv.1)

/-- Membership in the collected `to_remove` list is exactly removability of
    the key (removability is a function of the key alone). -/
lemma mem_to_remove_iff (today : Nat) (l : StatsMap) (k : DateKey)
    (hkv : k ∈ keys l) :
    (k ∈ ((l.filter fun x => removable1 today x.1).map Prod.fst ++
          (l.filter fun x => removable2 today x.1).map Prod.fst)) ↔
      removable today k = true := by
  simp only [List.mem_append, List.mem_map, List.mem_filter]
  constructor
  · rintro (⟨x, ⟨hx, hr⟩, he⟩ | ⟨x, ⟨hx, hr⟩, he⟩)
    · rw [← he]
      simp [removable, hr]
    · rw [← he]
      simp [removable, hr]
  · intro h
    obtain ⟨kv, hkvmem, hkeq⟩ := List.mem_map.mp hkv
    rw [removable, Bool.or_eq_true] at h
    rcases h with h | h
    · exact Or.inl ⟨kv, ⟨hkvmem, by rw [hkeq]; exact h⟩, hkeq⟩
    · exact Or.inr ⟨kv, ⟨hkvmem, by rw [hkeq]; exact h⟩, hkeq⟩

/-- The deletion step of the rollup keeps exactly the non-removable
    entries. -/
lemma pruned_eq (today : Nat) (l : StatsMap) :
    (l.filter fun kv => decide (kv.1 ∉
        ((l.filter fun x => removable1 today x.1).map Prod.fst ++
         (l.filter fun x => removable2 today x.1).map Prod.fst))) =
      l.filter fun kv => !(removable today kv.1) := by
  apply List.filter_congr
  intro kv hkv
  have h := mem_to_remove_iff today l kv.1 (List.mem_map_of_mem Prod.fst hkv)
  by_cases hr : removable today kv.1 = true
  · simp [hr, h.mpr hr]
  · have hrf : removable today kv.1 = false := by
      revert hr; cases removable today kv.1 <;> simp
    have hnm : kv.1 ∉ ((l.filter fun x => removable1 today x.1).map Prod.fst ++
        (l.filter fun x => removable2 today x.1).map Prod.fst) := fun hm => hr (h.mp hm)
    simp [hrf, hnm]

lemma keys_nodup_filter (p : DateKey × StatsBucket → Bool) {l : StatsMap}
    (h : keys_nodup l) : keys_nodup (l.filter p) := by
  have hsub : List.Sublist ((l.filter p).map Prod.fst) (l.map Prod.fst) :=
    List.Sublist.map Prod.fst (List.filter_sublist l)
  exact List.Nodup.sublist hsub h

/-- Embeds `_rollup_old_dates` preserves the total cost over `by_date` and keeps
    the keys duplicate-free. -/
lemma rollup_spec (today : Nat) (m : StatsMap) (h : keys_nodup m) :
    total_cost (rollup_old_dates today m) = total_cost m ∧
    keys_nodup (rollup_old_dates today m) := by
  unfold rollup_old_dates
  obtain ⟨ht1, hw1, hm1, hs1, hkw1, hkm1⟩ :=
    rollup1_fold today m ⟨[], [], []⟩ (by simp [keys_nodup, keys]) (by simp [keys_nodup, keys])
  obtain ⟨hweq, ht2, hm2, hs2, hkm2⟩ :=
    rollup2_fold today m (m.foldl (rollup_step1 today) ⟨[], [], []⟩) hm1
  simp only [ht2, ht1, List.nil_append]
  rw [pruned_eq]
  have hprune_nodup : keys_nodup (m.filter fun kv => !(removable today kv.1)) :=
    keys_nodup_filter _ h
  have hmerged_nodup : keys_nodup (merge_new (m.filter fun kv => !(removable today kv.1))
      (m.foldl (rollup_step2 today) (m.foldl (rollup_step1 today) ⟨[], [], []⟩)).weekly_buckets) :=
    keys_nodup_merge_new _ _ hprune_nodup
  constructor
  · rw [total_cost_merge_new _ _ hmerged_nodup, total_cost_merge_new _ _ hprune_nodup, hweq]
    have hpart := total_cost_filter_partition (fun kv => removable today kv.1) m
    have hsplit := total_cost_filter_removable today m
    simp only [total_cost_nil] at hs1 hs2 hpart hsplit ⊢
    omega
  · exact keys_nodup_merge_new _ _ hmerged_nodup

/-! ## Key-shape lemmas for rollup idempotence -/

/-- Every daily key surviving a rollup is non-removable; in fact every key
    of the output either came through the deletion filter (hence is
    non-removable) or is a weekly or monthly bucket key. -/
lemma rollup_rem1_false (today : Nat) (m : StatsMap) :
    ∀ k ∈ keys (rollup_old_dates today m), removable1 today k = false := by
  intro k hk
  unfold rollup_old_dates at hk
  obtain ⟨ht1, hw1, hm1, hs1, hkw1, hkm1⟩ :=
    rollup1_fold today m ⟨[], [], []⟩ (by simp [keys_nodup, keys]) (by simp [keys_nodup, keys])
  obtain ⟨hweq, ht2, hm2, hs2, hkm2⟩ :=
    rollup2_fold today m (m.foldl (rollup_step1 today) ⟨[], [], []⟩) hm1
  simp only [ht2, ht1, List.nil_append] at hk
  rw [pruned_eq] at hk
  rcases keys_merge_new_sub _ _ _ hk with hk2 | hk2
  · rcases keys_merge_new_sub _ _ _ hk2 with hk3 | hk3
    · -- pruned: the entry passed the `!removable` filter
      obtain ⟨kv, hkvmem, hkeq⟩ := List.mem_map.mp hk3
      have := (List.mem_filter.mp hkvmem).2
      rw [hkeq] at this
      have hrf : removable today k = false := by
        revert this; cases removable today k <;> simp
      rw [removable, Bool.or_eq_false_iff] at hrf
      exact hrf.1
    · -- a weekly bucket key created by the first pass
      rw [hweq] at hk3
      rcases hkw1 k hk3 with hk4 | hk4
      · simp [keys] at hk4
      · obtain ⟨y, w, rfl⟩ := hk4
        rfl
  · -- a monthly bucket key
    rcases hkm2 k hk2 with hk3 | hk3
    · rcases hkm1 k hk3 with hk4 | hk4
      · simp [keys] at hk4
      · obtain ⟨y, mo, rfl⟩ := hk4
        rfl
    · obtain ⟨y, mo, rfl⟩ := hk3
      rfl

lemma fold1_id (today : Nat) :
    ∀ (l : StatsMap) (acc : RollupAcc),
      (∀ kv ∈ l, removable1 today kv.1 = false) →
      l.foldl (rollup_step1 today) acc = acc := by
  intro l
  induction l with
  | nil => intro acc _; rfl
  | cons kv rest ih =>
    intro acc hall
    obtain ⟨k, b⟩ := kv
    have hk := hall (k, b) (by simp)
    have hstep : rollup_step1 today acc (k, b) = acc := by
      cases k with
      | daily y mo d =>
        cases hcd : classify_daily today y mo d with
        | keep => simp [rollup_step1, hcd]
        | toWeekly iy iw => rw [removable1] at hk; simp [hcd] at hk
        | toMonthly my mm => rw [removable1] at hk; simp [hcd] at hk
      | weekly y w => rfl
      | monthly y mo => rfl
    rw [List.foldl_cons, hstep]
    exact ih acc (fun x hx => hall x (by simp [hx]))

lemma fold2_id (today : Nat) :
    ∀ (l : StatsMap) (acc : RollupAcc),
      (∀ kv ∈ l, removable2 today kv.1 = false) →
      l.foldl (rollup_step2 today) acc = acc := by
  intro l
  induction l with
  | nil => intro acc _; rfl
  | cons kv rest ih =>
    intro acc hall
    obtain ⟨k, b⟩ := kv
    have hk := hall (k, b) (by simp)
    have hstep : rollup_step2 today acc (k, b) = acc := by
      cases k with
      | weekly y w =>
        cases hcw : classify_weekly today y w with
        | keep => simp [rollup_step2, hcw]
        | toWeekly iy iw => exact absurd hcw (classify_weekly_not_toWeekly today y w iy iw)
        | toMonthly my mm => rw [removable2] at hk; simp [hcw] at hk
      | daily y mo d => rfl
      | monthly y mo => rfl
    rw [List.foldl_cons, hstep]
    exact ih acc (fun x hx => hall x (by simp [hx]))

/-- When every key is non-removable, the rollup is the identity — the
    Python code computes empty `to_remove`/`weekly_buckets`/`monthly_buckets`
    and leaves the dict untouched. -/
lemma rollup_id (today : Nat) (m : StatsMap)
    (hall : ∀ kv ∈ m, removable today kv.1 = false) :
    rollup_old_dates today m = m := by
  have h1 : ∀ kv ∈ m, removable1 today kv.1 = false := by
    intro kv hkv
    have := hall kv hkv
    rw [removable, Bool.or_eq_false_iff] at this
    exact this.1
  have h2 : ∀ kv ∈ m, removable2 today kv.1 = false := by
    intro kv hkv
    have := hall kv hkv
    rw [removable, Bool.or_eq_false_iff] at this
    exact this.2
  unfold rollup_old_dates
  simp only [fold1_id today m ⟨[], [], []⟩ h1, fold2_id today m ⟨[], [], []⟩ h2]
  have hfil : (m.filter fun kv =>
      decide (kv.1 ∉ (⟨[], [], []⟩ : RollupAcc).to_remove)) = m := by
    apply List.filter_eq_self.mpr
    intro kv _
    simp
  rw [hfil]
  rfl

/-- A rollup applied to the output of a rollup produces only non-removable
    keys: the input has no removable daily keys left, so the second pass
    creates no weekly buckets, and everything else in its output is either
    filtered as non-removable or a (never removable) monthly key. -/
lemma rollup_all_keep (today : Nat) (m : StatsMap)
    (hd : ∀ kv ∈ m, removable1 today kv.1 = false) :
    ∀ kv ∈ rollup_old_dates today m, removable today kv.1 = false := by
  intro kv hkv
  have hk : kv.1 ∈ keys (rollup_old_dates today m) := List.mem_map_of_mem Prod.fst hkv
  unfold rollup_old_dates at hk
  have hacc1 : m.foldl (rollup_step1 today) ⟨[], [], []⟩ = ⟨[], [], []⟩ :=
    fold1_id today m ⟨[], [], []⟩ hd
  rw [hacc1] at hk
  obtain ⟨hweq, ht2, hm2, hs2, hkm2⟩ :=
    rollup2_fold today m (⟨[], [], []⟩ : RollupAcc) (by simp [keys_nodup, keys])
  simp only [ht2, List.nil_append] at hk
  have hpr : (m.filter fun kv => decide (kv.1 ∉
      ((m.filter fun x => removable2 today x.1).map Prod.fst))) =
      m.filter fun kv => !(removable today kv.1) := by
    have := pruned_eq today m
    have hf1 : (m.filter fun x => removable1 today x.1) = [] := by
      apply List.filter_eq_nil_iff.mpr
      intro x hx
      simp [hd x hx]
    rw [hf1] at this
    simpa using this
  rw [hpr] at hk
  rcases keys_merge_new_sub _ _ _ hk with hk2 | hk2
  · rcases keys_merge_new_sub _ _ _ hk2 with hk3 | hk3
    · obtain ⟨kv2, hkvmem, hkeq⟩ := List.mem_map.mp hk3
      have := (List.mem_filter.mp hkvmem).2
      rw [hkeq] at this
      revert this; cases removable today kv.1 <;> simp
    · rw [hweq] at hk3
      simp [keys] at hk3
  · rcases hkm2 kv.1 hk2 with hk3 | hk3
    · simp [keys] at hk3
    · obtain ⟨y, mo, hk4⟩ := hk3
      rw [hk4]
      rfl

/-! ## C2: rollup idempotence -/

/-- Claim C2 is refuted: on 2025-01-01, a daily bucket dated 2024-10-03
    (90 days old) is rolled into `week-2024-40` by one rollup, but the `%W`
    week start of that bucket, 2024-09-30, is 93 days old, so a second
    rollup moves it on into `month-2024-09`: the two bucket sets differ. -/
theorem c2_counterexample :
    keys (rollup_old_dates (toordinal 2025 1 1)
        [(DateKey.daily 2024 10 3, empty_bucket)]) = [DateKey.weekly 2024 40] ∧
    keys (rollup_old_dates (toordinal 2025 1 1) (rollup_old_dates (toordinal 2025 1 1)
        [(DateKey.daily 2024 10 3, empty_bucket)])) = [DateKey.monthly 2024 9] ∧
    rollup_old_dates (toordinal 2025 1 1) (rollup_old_dates (toordinal 2025 1 1)
        [(DateKey.daily 2024 10 3, empty_bucket)]) ≠
      rollup_old_dates (toordinal 2025 1 1)
        [(DateKey.daily 2024 10 3, empty_bucket)] := by
  refine ⟨by decide, by decide, by decide⟩

/-- Claim C2 as amended: a single rollup need not be idempotent (a weekly
    bucket it creates can already be over 90 days old), but the rollup
    stabilises after two runs: for every stats state and current date,
    running `_rollup_old_dates` a third time leaves the `by_date` bucket
    set of the second run exactly unchanged. -/
theorem c2_theorem (today : Nat) (m : StatsMap) :
    rollup_old_dates today (rollup_old_dates today (rollup_old_dates today m)) =
      rollup_old_dates today (rollup_old_dates today m) := by
  apply rollup_id
  intro kv hkv
  have hd : ∀ kv2 ∈ rollup_old_dates today m, removable1 today kv2.1 = false :=
    fun kv2 hkv2 =>
      rollup_rem1_false today m kv2.1 (List.mem_map_of_mem Prod.fst hkv2)
  exact rollup_all_keep today (rollup_old_dates today m) hd kv hkv

/-! ## C1: conservation of cost across buckets and history -/

/-- Claim C1 is refuted: after a single `record_cost` of cost "$1.50" on an
    empty state, the sum over the global bucket plus every `by_date` bucket
    is 300 cents (the same 150 cents is counted in both), while the
    ticket-history sum is 150 cents. -/
theorem c1_counterexample :
    buckets_cost (apply_ops
      [StatsOp.record ⟨"card1", "proj", some "$1.50", none, none, none,
        0, 0, 0, 0, ⟨2025, 10, 12⟩, "t0"⟩] empty_stats) = 300 ∧
    history_cost (apply_ops
      [StatsOp.record ⟨"card1", "proj", some "$1.50", none, none, none,
        0, 0, 0, 0, ⟨2025, 10, 12⟩, "t0"⟩] empty_stats).ticket_history = 150 ∧
    (300 : Nat) ≠ 150 := by
  refine ⟨by decide, by decide, by decide⟩

lemma history_cost_append (l : List TicketRecord) (r : TicketRecord) :
    history_cost (l ++ [r]) = history_cost l + r.cost_cents := by
  simp [history_cost]

/-- The invariant maintained by every stats operation: `by_date` keys stay
    duplicate-free, the global cost equals the `by_date` cost sum, and —
    while at most 100 tickets have ever been recorded — the history length
    counts the records and the history cost equals the global cost. -/
lemma apply_ops_inv :
    ∀ (ops : List StatsOp) (s : Stats) (n : Nat),
      keys_nodup s.by_date →
      s.global.total_cost_cents = total_cost s.by_date →
      (n ≤ 100 → s.ticket_history.length = n ∧
        history_cost s.ticket_history = s.global.total_cost_cents) →
      keys_nodup (apply_ops ops s).by_date ∧
      (apply_ops ops s).global.total_cost_cents = total_cost (apply_ops ops s).by_date ∧
      (n + record_count ops ≤ 100 →
        (apply_ops ops s).ticket_history.length = n + record_count ops ∧
        history_cost (apply_ops ops s).ticket_history =
          (apply_ops ops s).global.total_cost_cents) := by
  intro ops
  induction ops with
  | nil =>
    intro s n h1 h2 h3
    exact ⟨h1, h2, by simpa [apply_ops, record_count] using h3⟩
  | cons op rest ih =>
    intro s n h1 h2 h3
    have hstep : apply_ops (op :: rest) s = apply_ops rest (apply_op s op) := rfl
    rw [hstep]
    cases op with
    | save t =>
      obtain ⟨hr1, hr2⟩ := rollup_spec t.toord s.by_date h1
      have := ih { s with by_date := rollup_old_dates t.toord s.by_date } n
        hr2 (by simpa [hr1] using h2) h3
      simpa [apply_op, record_count] using this
    | record a =>
      set delta : StatsBucket :=
        ⟨parse_cost a.total_cost, 1, parse_duration a.api_duration,
         parse_duration a.wall_duration, (parse_code_changes a.code_changes).1,
         (parse_code_changes a.code_changes).2, a.input_tokens, a.output_tokens,
         a.cache_creation_tokens, a.cache_read_tokens⟩ with hdelta
      have hnd2 : keys_nodup (dict_add s.by_date
          (.daily a.today.year a.today.month a.today.day) delta) :=
        keys_nodup_dict_add _ delta h1
      obtain ⟨hr1, hr2⟩ := rollup_spec a.today.toord _ hnd2
      have htot : total_cost (rollup_old_dates a.today.toord
          (dict_add s.by_date (.daily a.today.year a.today.month a.today.day) delta)) =
          total_cost s.by_date + parse_cost a.total_cost := by
        rw [hr1, total_cost_dict_add _ delta h1]
      have hglob : (aggregate_into_bucket s.global delta).total_cost_cents =
          s.global.total_cost_cents + parse_cost a.total_cost := rfl
      have hrecord : apply_op s (.record a) = record_cost s a := rfl
      have hhist3 : n + 1 ≤ 100 →
          (record_cost s a).ticket_history.length = n + 1 ∧
          history_cost (record_cost s a).ticket_history =
            (record_cost s a).global.total_cost_cents := by
        intro hle
        obtain ⟨hlen, hsum⟩ := h3 (by omega)
        have hlen2 : ¬ 100 < (s.ticket_history ++
            [(⟨a.card_id, a.project, parse_cost a.total_cost,
              parse_duration a.api_duration, parse_duration a.wall_duration,
              (parse_code_changes a.code_changes).1, (parse_code_changes a.code_changes).2,
              a.input_tokens, a.output_tokens, a.cache_creation_tokens,
              a.cache_read_tokens, a.now_iso⟩ : TicketRecord)]).length := by
          simp [hlen]; omega
        constructor
        · show (if 100 < _ then _ else _ : List TicketRecord).length = n + 1
          rw [if_neg hlen2]
          simp [hlen]
        · show history_cost (if 100 < _ then _ else _) = _
          rw [if_neg hlen2, history_cost_append, hsum]
          rfl
      have hmain := ih (record_cost s a) (n + 1)
        (by simpa [record_cost] using hr2)
        (by
          show (aggregate_into_bucket s.global delta).total_cost_cents =
            total_cost (record_cost s a).by_date
          rw [hglob]
          show _ = total_cost (rollup_old_dates a.today.toord
            (dict_add s.by_date (.daily a.today.year a.today.month a.today.day) delta))
          rw [htot, h2])
        hhist3
      have hcount : n + record_count (StatsOp.record a :: rest) =
          (n + 1) + record_count rest := by
        simp [record_count]; omega
      rw [hrecord]
      exact ⟨hmain.1, hmain.2.1, by rw [hcount]; exact hmain.2.2⟩

/-- Claim C1 as amended: for any sequence of recordings and rollups from
    the empty state, the cost of the global bucket alone equals the sum over all
    `by_date` buckets (counting the global bucket a second time double
    counts), and the ticket-history cost sum equals that total exactly
    while at most 100 tickets have been recorded — beyond that, the history
    is capped to the 100 most recent records. -/
theorem c1_theorem (ops : List StatsOp) :
    (apply_ops ops empty_stats).global.total_cost_cents =
      total_cost (apply_ops ops empty_stats).by_date ∧
    (record_count ops ≤ 100 →
      history_cost (apply_ops ops empty_stats).ticket_history =
        (apply_ops ops empty_stats).global.total_cost_cents) := by
  have h := apply_ops_inv ops empty_stats 0
    (by simp [empty_stats, keys_nodup, keys])
    (by simp [empty_stats, empty_bucket, total_cost_nil])
    (by intro _; simp [empty_stats, history_cost, empty_bucket])
  exact ⟨h.2.1, fun hle => (h.2.2 (by omega)).2⟩

/-- Witness for the amended C1 theorem on a one-record run. -/
theorem c1_witness :
    (apply_ops [StatsOp.record ⟨"card1", "proj", some "$1.50", none, none, none,
        0, 0, 0, 0, ⟨2025, 10, 12⟩, "t0"⟩] empty_stats).global.total_cost_cents =
      total_cost (apply_ops [StatsOp.record ⟨"card1", "proj", some "$1.50", none, none,
        none, 0, 0, 0, 0, ⟨2025, 10, 12⟩, "t0"⟩] empty_stats).by_date ∧
    history_cost (apply_ops [StatsOp.record ⟨"card1", "proj", some "$1.50", none, none,
        none, 0, 0, 0, 0, ⟨2025, 10, 12⟩, "t0"⟩] empty_stats).ticket_history =
      (apply_ops [StatsOp.record ⟨"card1", "proj", some "$1.50", none, none, none,
        0, 0, 0, 0, ⟨2025, 10, 12⟩, "t0"⟩] empty_stats).global.total_cost_cents := by
  have h := c1_theorem [StatsOp.record ⟨"card1", "proj", some "$1.50", none, none, none,
    0, 0, 0, 0, ⟨2025, 10, 12⟩, "t0"⟩]
  exact ⟨h.1, h.2 (by decide)⟩

/-! ## C9: one concrete recording -/

lemma getLast?_concat_drop {α : Type} :
    ∀ (k : Nat) (l : List α) (r : α), k ≤ l.length →
      ((l ++ [r]).drop k).getLast? = some r := by
  intro k
  induction k with
  | zero =>
    intro l r _
    simp [List.getLast?_concat]
  | succ k ih =>
    intro l r hk
    cases l with
    | nil => simp at hk
    | cons x rest =>
      have : ((x :: rest ++ [r]).drop (k + 1)) = (rest ++ [r]).drop k := rfl
      rw [this]
      exact ih rest r (by simpa using hk)

lemma history_truncate_getLast (l : List TicketRecord) (r : TicketRecord) :
    (if 100 < (l ++ [r]).length then
        (l ++ [r]).drop ((l ++ [r]).length - 100)
      else l ++ [r]).getLast? = some r := by
  by_cases h : 100 < (l ++ [r]).length
  · rw [if_pos h]
    apply getLast?_concat_drop
    simp only [List.length_append, List.length_cons, List.length_nil] at h ⊢
    omega
  · rw [if_neg h]
    simp [List.getLast?_concat]

/-- Claim C9: recording a ticket with cost "$1.50", API duration "2m 30s",
    wall duration "5m 15s" and code changes "+100 -50" stores a history
    record with cost_cents = 150, api_duration_seconds = 150,
    wall_duration_seconds = 315, lines_added = 100 and lines_removed = 50,
    from any prior state. -/
theorem c9_theorem (s : Stats) (card proj now : String) (today : Ymd) :
    (record_cost s ⟨card, proj, some "$1.50", some "2m 30s", some "5m 15s",
        some "+100 -50", 0, 0, 0, 0, today, now⟩).ticket_history.getLast? =
      some ⟨card, proj, 150, 150, 315, 100, 50, 0, 0, 0, 0, now⟩ := by
  have h1 : parse_cost (some "$1.50") = 150 := by decide
  have h2 : parse_duration (some "2m 30s") = 150 := by decide
  have h3 : parse_duration (some "5m 15s") = 315 := by decide
  have h4 : parse_code_changes (some "+100 -50") = (100, 50) := by decide
  show (if 100 < _ then _ else _ : List TicketRecord).getLast? = _
  rw [history_truncate_getLast]
  simp [h1, h2, h3, h4]

end Trellm
